import Mathlib

/-!
Verification of the GeoPackage decoding and incremental publishing pipeline
(`lm_geotorget.tiling`): the GPB→WKB codec (`gpkg_reader.gpb_to_wkb`), the
WKB↔GeoJSON/WKT codec (`wkb_parser`), the order-type detector (`detector`),
the container reader (`gpkg_reader.GeoPackageReader`), the PostGIS loader
(`postgis_loader.PostGISLoader`) and the order processor (`processor`).

Bytes are modelled as `List Nat` (each element a byte value 0–255; arithmetic
on assembled values is plain `Nat` arithmetic, exactly as Python `int`).
Python exceptions are modelled with `Except`; distinct exception classes that
the claims distinguish (`ValueError` vs `struct.error` vs `IndexError`) are
separate constructors.
-/

namespace Geotorget

/-! ## Python exception model

`wkb_parser` can raise three distinct exception classes:
`ValueError` (explicit raises), `struct.error` (a `struct.unpack` call whose
buffer does not have exactly the required size) and `IndexError` (indexing
`wkb[offset]` past the end of the bytes). -/

inductive PyErr where
  | valueError (msg : String)
  | structError
  | indexError
  deriving DecidableEq, Repr

/-! ## `gpkg_reader.gpb_to_wkb`

Direct embedding of `src/lm_geotorget/tiling/gpkg_reader.py`, lines 13–48.
The source raises `ValueError` for inputs shorter than 8 bytes *before* the
magic-marker check; then returns non-GPB input unchanged; then strips the
8-byte header plus the envelope whose size is selected by bits 1–3 of the
flag byte from `{0:0, 1:32, 2:48, 3:48, 4:64}` (`dict.get` default 0). -/

def envelopeSizes (envelopeType : Nat) : Nat :=
  -- `envelope_sizes = {0: 0, 1: 32, 2: 48, 3: 48, 4: 64}` with `.get(_, 0)`
  match envelopeType with
  | 0 => 0
  | 1 => 32
  | 2 => 48
  | 3 => 48
  | 4 => 64
  | _ => 0

def gpb_to_wkb (gpb : List Nat) : Except PyErr (List Nat) :=
  if gpb.length < 8 then
    .error (.valueError ("GPB too short: " ++ toString gpb.length ++ " bytes"))
  else if gpb.take 2 ≠ [0x47, 0x50] then
    -- Not GPB format, might already be WKB - return as-is
    .ok gpb
  else
    let flags := gpb.getD 3 0
    let envelope_type := (flags >>> 1) &&& 0x07
    let envelope_size := envelopeSizes envelope_type
    let wkb_offset := 8 + envelope_size
    .ok (gpb.drop wkb_offset)

end Geotorget

namespace Geotorget
end Geotorget

namespace Geotorget

/-! ## `wkb_parser.wkb_to_geojson`

Embedding of `src/lm_geotorget/tiling/wkb_parser.py`.  IEEE-754 doubles are
modelled by their 64-bit bit patterns (`Nat`): `struct.unpack("<d", …)` does
no arithmetic, it reinterprets 8 bytes, so writing a pattern and reading it
back is exact — which is precisely the spec's "bit-exact doubles, no
arithmetic applied between writing and reading".

`struct.unpack` raises `struct.error` when the sliced buffer does not have
exactly the format's size (Python slicing silently truncates, the length
check happens inside `unpack`); indexing `wkb[offset]` out of range raises
`IndexError`.  Both are distinct from the `ValueError`s the module raises
explicitly. -/

/-- GeoJSON geometry dicts, as produced by `wkb_to_geojson`.  Coordinates are
64-bit IEEE-754 bit patterns. -/
inductive Geom where
  | point (x y : Nat)
  | linestring (coords : List (Nat × Nat))
  | polygon (rings : List (List (Nat × Nat)))
  | multipoint (coords : List (Nat × Nat))
  | multilinestring (coords : List (List (Nat × Nat)))
  | multipolygon (coords : List (List (List (Nat × Nat))))
  | geometrycollection (geoms : List Geom)

/-- `wkb[offset : offset+k]` — Python slices truncate silently. -/
def slice (wkb : List Nat) (offset k : Nat) : List Nat :=
  (wkb.drop offset).take k

/-- Little-endian base-256 value of a byte list. -/
def leVal : List Nat → Nat
  | [] => 0
  | b :: bs => b + 256 * leVal bs

/-- Big-endian base-256 value of a byte list. -/
def beVal (bs : List Nat) : Nat := leVal bs.reverse

/-- `struct.unpack(f"{endian}I", s)`: errors unless the buffer is exactly
4 bytes. -/
def unpackU32 (endian : String) (s : List Nat) : Except PyErr Nat :=
  if s.length = 4 then
    .ok (if endian = "<" then leVal s else beVal s)
  else
    .error .structError

/-- `struct.unpack(f"{endian}dd", s)`: errors unless the buffer is exactly
16 bytes; yields the two 64-bit patterns. -/
def unpackDD (endian : String) (s : List Nat) : Except PyErr (Nat × Nat) :=
  if s.length = 16 then
    .ok (if endian = "<" then (leVal (s.take 8), leVal (s.drop 8))
         else (beVal (s.take 8), beVal (s.drop 8)))
  else
    .error .structError

/-- `wkb[offset]` with Python semantics: `IndexError` out of range. -/
def byteAt (wkb : List Nat) (offset : Nat) : Except PyErr Nat :=
  match wkb.get? offset with
  | some b => .ok b
  | none => .error .indexError

/-- `_parse_point`, returning the coordinate pair (the dict's
`"coordinates"`). -/
def parsePointCoords (wkb : List Nat) (offset : Nat) (endian : String) :
    Except PyErr (Nat × Nat) :=
  unpackDD endian (slice wkb offset 16)

/-- The `for _ in range(num_points)` loop shared by `_parse_linestring` and
`_parse_polygon`: reads 16 bytes per point, advancing the offset. -/
def pointsLoop (wkb : List Nat) (endian : String) :
    Nat → Nat → Except PyErr (List (Nat × Nat))
  | 0, _ => .ok []
  | n + 1, offset => do
      let c ← unpackDD endian (slice wkb offset 16)
      let rest ← pointsLoop wkb endian n (offset + 16)
      .ok (c :: rest)

/-- `_parse_linestring`, returning the coordinate list. -/
def parseLineCoords (wkb : List Nat) (offset : Nat) (endian : String) :
    Except PyErr (List (Nat × Nat)) := do
  let num_points ← unpackU32 endian (slice wkb offset 4)
  pointsLoop wkb endian num_points (offset + 4)

/-- The ring loop of `_parse_polygon`: per ring a 4-byte count then
`16 * num_points` coordinate bytes. -/
def ringsLoop (wkb : List Nat) (endian : String) :
    Nat → Nat → Except PyErr (List (List (Nat × Nat)))
  | 0, _ => .ok []
  | n + 1, offset => do
      let num_points ← unpackU32 endian (slice wkb offset 4)
      let ring ← pointsLoop wkb endian num_points (offset + 4)
      let rest ← ringsLoop wkb endian n (offset + 4 + 16 * num_points)
      .ok (ring :: rest)

/-- `_parse_polygon`, returning the ring list. -/
def parsePolygonRings (wkb : List Nat) (offset : Nat) (endian : String) :
    Except PyErr (List (List (Nat × Nat))) := do
  let num_rings ← unpackU32 endian (slice wkb offset 4)
  ringsLoop wkb endian num_rings (offset + 4)

def parse_point (wkb : List Nat) (offset : Nat) (endian : String) :
    Except PyErr Geom :=
  (parsePointCoords wkb offset endian).map fun c => .point c.1 c.2

def parse_linestring (wkb : List Nat) (offset : Nat) (endian : String) :
    Except PyErr Geom :=
  (parseLineCoords wkb offset endian).map .linestring

def parse_polygon (wkb : List Nat) (offset : Nat) (endian : String) :
    Except PyErr Geom :=
  (parsePolygonRings wkb offset endian).map .polygon

/-- The sub-geometry header read of `_parse_multi` /
`_parse_geometry_collection`: 1 byte inner endianness (`1` = little,
anything else = big — no validation), then a 4-byte type code whose value is
computed but unused by `_parse_multi`. -/
def innerHeader (wkb : List Nat) (offset : Nat) :
    Except PyErr (String × Nat) := do
  let b ← byteAt wkb offset
  let inner_endian := if b = 1 then "<" else ">"
  let t ← unpackU32 inner_endian (slice wkb (offset + 1) 4)
  .ok (inner_endian, t)

/-- `_parse_multi` loop, `inner_type == WKB_POINT`: parse 16 coordinate bytes
after each 5-byte sub-header, advance by 16. -/
def multiPointLoop (wkb : List Nat) :
    Nat → Nat → Except PyErr (List (Nat × Nat))
  | 0, _ => .ok []
  | n + 1, offset => do
      let (inner_endian, _) ← innerHeader wkb offset
      let c ← parsePointCoords wkb (offset + 5) inner_endian
      let rest ← multiPointLoop wkb n (offset + 5 + 16)
      .ok (c :: rest)

/-- `_parse_multi` loop, `inner_type == WKB_LINESTRING`: parse, then re-read
the point count to advance by `4 + num_points * 16`. -/
def multiLineLoop (wkb : List Nat) :
    Nat → Nat → Except PyErr (List (List (Nat × Nat)))
  | 0, _ => .ok []
  | n + 1, offset => do
      let (inner_endian, _) ← innerHeader wkb offset
      let cs ← parseLineCoords wkb (offset + 5) inner_endian
      let num_points ← unpackU32 inner_endian (slice wkb (offset + 5) 4)
      let rest ← multiLineLoop wkb n (offset + 5 + 4 + 16 * num_points)
      .ok (cs :: rest)

/-- The offset-advancement recomputation of `_parse_multi` for polygons:
walks the rings again, adding `4 + num_points * 16` per ring. -/
def polyAdvance (wkb : List Nat) (endian : String) :
    Nat → Nat → Except PyErr Nat
  | 0, offset => .ok offset
  | n + 1, offset => do
      let num_points ← unpackU32 endian (slice wkb offset 4)
      polyAdvance wkb endian n (offset + 4 + 16 * num_points)

/-- `_parse_multi` loop, `inner_type == WKB_POLYGON`. -/
def multiPolyLoop (wkb : List Nat) :
    Nat → Nat → Except PyErr (List (List (List (Nat × Nat))))
  | 0, _ => .ok []
  | n + 1, offset => do
      let (inner_endian, _) ← innerHeader wkb offset
      let rings ← parsePolygonRings wkb (offset + 5) inner_endian
      let num_rings ← unpackU32 inner_endian (slice wkb (offset + 5) 4)
      let offset' ← polyAdvance wkb inner_endian num_rings (offset + 5 + 4)
      let rest ← multiPolyLoop wkb n offset'
      .ok (rings :: rest)

def parse_multi (wkb : List Nat) (offset : Nat) (endian : String)
    (inner_type : Nat) : Except PyErr Geom := do
  let num_geoms ← unpackU32 endian (slice wkb offset 4)
  if inner_type = 1 then
    (multiPointLoop wkb num_geoms (offset + 4)).map .multipoint
  else if inner_type = 2 then
    (multiLineLoop wkb num_geoms (offset + 4)).map .multilinestring
  else
    (multiPolyLoop wkb num_geoms (offset + 4)).map .multipolygon

/-- The `for _ in range(num_geoms)` loop of `_parse_geometry_collection`:
reads each sub-geometry's 5-byte header (endianness byte, masked type code),
delegates to `_parse_geometry` (passed in as `recur`), and — as in the
source — advances the offset only past the 5-byte header, not past the
sub-geometry's content (the documented offset-tracking flaw). -/
def collectionLoop (recur : Nat → Nat → String → Except PyErr Geom)
    (wkb : List Nat) : Nat → Nat → Except PyErr (List Geom)
  | 0, _ => .ok []
  | n + 1, offset => do
      let (inner_endian, t) ← innerHeader wkb offset
      let inner_geom_type := t &&& 0xFF
      let g ← recur (offset + 5) inner_geom_type inner_endian
      let rest ← collectionLoop recur wkb n (offset + 5)
      .ok (g :: rest)

/-- `_parse_geometry`.  The only recursion in the source is
`GeometryCollection` → `_parse_geometry`; each nesting level reads a 4-byte
count and a 5-byte sub-header at strictly larger offsets, so nesting depth
is below `wkb.length / 9` and the fuel `wkb_to_geojson` passes
(`wkb.length`) can never run out — the fuel exists solely to make the
recursion structural; only nested `GeometryCollection`s consume it. -/
def parse_geometry (wkb : List Nat) :
    Nat → Nat → Nat → String → Except PyErr Geom
  | fuel, offset, geom_type, endian =>
    if geom_type = 1 then parse_point wkb offset endian
    else if geom_type = 2 then parse_linestring wkb offset endian
    else if geom_type = 3 then parse_polygon wkb offset endian
    else if geom_type = 4 then parse_multi wkb offset endian 1
    else if geom_type = 5 then parse_multi wkb offset endian 2
    else if geom_type = 6 then parse_multi wkb offset endian 3
    else if geom_type = 7 then
      match fuel with
      | 0 => .error .structError   -- unreachable with fuel = wkb.length
      | fuel' + 1 => do
          let num_geoms ← unpackU32 endian (slice wkb offset 4)
          (collectionLoop (fun o t e => parse_geometry wkb fuel' o t e)
            wkb num_geoms (offset + 4)).map .geometrycollection
    else
      .error (.valueError ("Unsupported geometry type: " ++ toString geom_type))

def wkb_to_geojson (wkb : List Nat) : Except PyErr Geom :=
  if wkb.length < 5 then .error (.valueError "Invalid WKB: too short")
  else do
    let byte_order := wkb.getD 0 0
    let endian ←
      if byte_order = 0 then Except.ok ">"
      else if byte_order = 1 then Except.ok "<"
      else Except.error (.valueError ("Invalid WKB byte order: " ++ toString byte_order))
    let geom_type ← unpackU32 endian (slice wkb 1 4)
    -- EWKB: bit 0x20000000 marks a 4-byte SRID to skip
    let offset := if geom_type &&& 0x20000000 ≠ 0 then 9 else 5
    let base_type := geom_type &&& 0xFF
    parse_geometry wkb wkb.length offset base_type endian

/-! ## `wkb_parser.geojson_to_wkt`

Renders the fixed `TYPE(…)` grammar with comma-joined groups, exactly as the
source's f-strings and `", ".join(…)` do.  The one abstraction: Python
formats each coordinate with `f"{c}"`, i.e. `repr` of the float — the
shortest decimal string that round-trips, an injective rendering of the
64-bit value.  `floatRepr` renders our bit-pattern doubles injectively in
its place; the grammar structure around it is embedded verbatim. -/

def floatRepr (bits : Nat) : String := toString bits

def coordStr (c : Nat × Nat) : String := floatRepr c.1 ++ " " ++ floatRepr c.2

def ringStr (ring : List (Nat × Nat)) : String :=
  "(" ++ String.intercalate ", " (ring.map coordStr) ++ ")"

def geojson_to_wkt : Geom → Except PyErr String
  | .point x y => .ok ("POINT(" ++ coordStr (x, y) ++ ")")
  | .linestring cs =>
      .ok ("LINESTRING(" ++ String.intercalate ", " (cs.map coordStr) ++ ")")
  | .polygon rs =>
      .ok ("POLYGON(" ++ String.intercalate ", " (rs.map ringStr) ++ ")")
  | .multipoint cs =>
      .ok ("MULTIPOINT(" ++
        String.intercalate ", " (cs.map fun c => "(" ++ coordStr c ++ ")") ++ ")")
  | .multilinestring ls =>
      .ok ("MULTILINESTRING(" ++ String.intercalate ", " (ls.map ringStr) ++ ")")
  | .multipolygon ps =>
      .ok ("MULTIPOLYGON(" ++
        String.intercalate ", "
          (ps.map fun p => "(" ++ String.intercalate ", " (p.map ringStr) ++ ")") ++ ")")
  | .geometrycollection _ =>
      .error (.valueError "Unsupported geometry type: GeometryCollection")

/-! ## WKB serialization (spec-modelled)

Modelled from the spec: the repository has no `geojson_to_wkb`, but §8's
round-trip property (`wkt(wkb_to_geojson(geojson_to_wkb(g)))`) names one.
It follows the WKB layout the spec fixes in §4.3/§6: byte 0 endianness
(1 = little), bytes 1–4 the geometry type code, then the type-specific
payload; each sub-geometry of a Multi variant carries its own 5-byte
header.  Little-endian throughout; no EWKB SRID flag.  `GeometryCollection`
is outside the round-trip property ("collections excluded") and is not
serialized. -/

/-- `k`-byte little-endian encoding of `n`. -/
def natToBytesLE : Nat → Nat → List Nat
  | 0, _ => []
  | k + 1, n => n % 256 :: natToBytesLE k (n / 256)

def u32le (n : Nat) : List Nat := natToBytesLE 4 n

def coordBytes (c : Nat × Nat) : List Nat :=
  natToBytesLE 8 c.1 ++ natToBytesLE 8 c.2

def ringBytes (ring : List (Nat × Nat)) : List Nat :=
  u32le ring.length ++ ring.flatMap coordBytes

def polyBytes (rings : List (List (Nat × Nat))) : List Nat :=
  u32le rings.length ++ rings.flatMap ringBytes

def geojson_to_wkb : Geom → Option (List Nat)
  | .point x y => some (1 :: (u32le 1 ++ coordBytes (x, y)))
  | .linestring cs =>
      some (1 :: (u32le 2 ++ (u32le cs.length ++ cs.flatMap coordBytes)))
  | .polygon rs => some (1 :: (u32le 3 ++ polyBytes rs))
  | .multipoint cs =>
      some (1 :: (u32le 4 ++ (u32le cs.length ++
        cs.flatMap fun c => 1 :: (u32le 1 ++ coordBytes c))))
  | .multilinestring ls =>
      some (1 :: (u32le 5 ++ (u32le ls.length ++
        ls.flatMap fun l => 1 :: (u32le 2 ++ ringBytes l))))
  | .multipolygon ps =>
      some (1 :: (u32le 6 ++ (u32le ps.length ++
        ps.flatMap fun p => 1 :: (u32le 3 ++ polyBytes p))))
  | .geometrycollection _ => none

/-- Representable geometries: every coordinate pattern fits in 64 bits and
every count fits in 32 bits (what the binary format can carry). -/
def wfCoord (c : Nat × Nat) : Bool :=
  decide (c.1 < 2 ^ 64) && decide (c.2 < 2 ^ 64)

def wfRing (ring : List (Nat × Nat)) : Bool :=
  decide (ring.length < 2 ^ 32) && ring.all wfCoord

def wfPoly (rings : List (List (Nat × Nat))) : Bool :=
  decide (rings.length < 2 ^ 32) && rings.all wfRing

def wfGeom : Geom → Bool
  | .point x y => wfCoord (x, y)
  | .linestring cs => wfRing cs
  | .polygon rs => wfPoly rs
  | .multipoint cs => wfRing cs
  | .multilinestring ls => wfPoly ls
  | .multipolygon ps => decide (ps.length < 2 ^ 32) && ps.all wfPoly
  | .geometrycollection _ => false

/-! ## `gpkg_reader.GeoPackageReader`

The reader's SQLite access is external (the `sqlite3` stdlib binding), so a
GeoPackage file is modelled by its catalog/table contents as the queries see
them: `gpkg_contents` rows with `data_type = 'features'`,
`gpkg_geometry_columns` rows, `PRAGMA table_info` output, and each table's
rows in storage order.  A table row carries `fid` and the raw stored
geometry blob; the remaining attribute columns flow only into external SQL
inserts and are not modelled. -/

structure GeomCol where
  column_name : String
  geometry_type_name : String
  srs_id : Int
  deriving Repr, DecidableEq

structure Row where
  fid : Int
  geometry : Option (List Nat)
  deriving Repr, DecidableEq

structure GpkgData where
  contentsFeatures : List String
  geometryColumns : List (String × GeomCol)
  tableColumns : List (String × List (String × String))
  tableRows : List (String × List Row)
  deriving Repr, DecidableEq

structure LayerInfo where
  name : String
  geometry_column : String
  geometry_type : String
  srid : Int
  feature_count : Nat
  columns : List (String × String)
  deriving Repr, DecidableEq

structure Feature where
  fid : Int
  geometry : Option (List Nat)
  deriving Repr, DecidableEq

/-! Kernel-computable character-list replacements for the `String` library
routines the source relies on (`lower()`, `endswith()`, `<`, path splitting):
Lean's own `String.toLower`/`endsWith`/`≤` are iterator-based and do not
reduce, while their char-list counterparts below do.  They agree with
Python's semantics on the ASCII data these code paths handle. -/

/-- `str.lower()` (ASCII). -/
def pyLower (s : String) : String := String.mk (s.toList.map Char.toLower)

/-- `str.endswith(suffix)`. -/
def strEndsWith (s suf : String) : Bool := suf.toList.isSuffixOf s.toList

/-- Lexicographic code-point comparison, as Python `<=` on `str` and
SQLite's default BINARY collation order strings. -/
def charListLe : List Char → List Char → Bool
  | [], _ => true
  | _ :: _, [] => false
  | a :: as, b :: bs => if a == b then charListLe as bs else decide (a < b)

def strLe (a b : String) : Bool := charListLe a.toList b.toList

/-- Insertion sort on strings — `ORDER BY table_name`. -/
def insertSortedStr (s : String) : List String → List String
  | [] => [s]
  | t :: ts => if strLe s t then s :: t :: ts else t :: insertSortedStr s ts

def sortStrings : List String → List String
  | [] => []
  | s :: ss => insertSortedStr s (sortStrings ss)

/-- `sorted(set(xs))`. -/
def sortedSet (xs : List String) : List String := sortStrings xs.eraseDups

/-- `list_layers`: feature layers from `gpkg_contents`, ordered by name. -/
def list_layers (g : GpkgData) : List String := sortStrings g.contentsFeatures

/-- `get_layer_info`: geometry column/type/SRID from
`gpkg_geometry_columns` (`ValueError` if absent), exact `COUNT(*)`, and the
`PRAGMA table_info` columns minus the geometry column and `fid`
(case-insensitive). A missing table makes `COUNT(*)` fail (SQLite
`OperationalError`); `PRAGMA` on a missing table yields no rows. -/
def get_layer_info (g : GpkgData) (layer : String) : Except String LayerInfo :=
  match g.geometryColumns.find? (fun p => p.1 == layer) with
  | none => .error ("Layer not found: " ++ layer)
  | some gcp =>
      let gc := gcp.2
      match g.tableRows.find? (fun p => p.1 == layer) with
      | none => .error ("no such table: " ++ layer)
      | some rp =>
          let cols := ((g.tableColumns.find? (fun p => p.1 == layer)).map (·.2)).getD []
          .ok { name := layer
                geometry_column := gc.column_name
                geometry_type := gc.geometry_type_name
                srid := gc.srs_id
                feature_count := rp.2.length
                columns := cols.filter fun c =>
                  c.1 != gc.column_name && pyLower c.1 != "fid" }

/-- Exception text used when a `read_layer` row conversion raises. -/
def pyErrStr : PyErr → String
  | .valueError m => m
  | .structError => "unpack requires a buffer of the given size"
  | .indexError => "index out of range"

/-- `gpb_to_wkb(gpb) if gpb else None`: Python's truthiness makes both NULL
and the empty blob yield `None`; otherwise the GPB header is stripped (and a
too-short blob raises out of the generator). -/
def convGeom : Option (List Nat) → Except PyErr (Option (List Nat))
  | none => .ok none
  | some [] => .ok none
  | some bs => (gpb_to_wkb bs).map some

/-- The row loop of `read_layer`, converting each stored blob. -/
def convFeatures : List Row → Except String (List Feature)
  | [] => .ok []
  | r :: rs =>
      match convGeom r.geometry with
      | .error e => .error (pyErrStr e)
      | .ok geom => (convFeatures rs).map fun fs => ⟨r.fid, geom⟩ :: fs

/-- The `LIMIT`/`OFFSET` suffix of `read_layer`'s query.  `if limit:` and
`if offset:` use Python truthiness, so `0` adds no clause, and SQLite
rejects an `OFFSET` clause without a `LIMIT` clause. -/
def selectRows (rows : List Row) (lim : Option Nat) (off : Nat) :
    Except String (List Row) :=
  match lim, off with
  | some 0, 0 => .ok rows
  | some 0, _ + 1 => .error "near OFFSET: syntax error"
  | some (n + 1), 0 => .ok (rows.take (n + 1))
  | some (n + 1), o + 1 => .ok ((rows.drop (o + 1)).take (n + 1))
  | none, 0 => .ok rows
  | none, _ + 1 => .error "near OFFSET: syntax error"

/-- `read_layer` (modelled eagerly: the source is a generator, so a bad row
surfaces when it is reached; eager evaluation yields the same
list-or-exception outcome).  A layer with no attribute columns would build
`SELECT fid, "geom",  FROM …` — an SQL syntax error, modelled as such. -/
def read_layer (g : GpkgData) (layer : String) (lim : Option Nat)
    (off : Nat) : Except String (List Feature) := do
  let info ← get_layer_info g layer
  if info.columns.isEmpty then
    .error "SQL syntax error"
  else
    match g.tableRows.find? (fun p => p.1 == layer) with
    | none => .error ("no such table: " ++ layer)
    | some rp => do
        let rows ← selectRows rp.2 lim off
        convFeatures rows

/-! ## `detector.py` -/

/-- `DataType` enum. -/
inductive DataType where
  | VECTOR_GPKG
  | LIDAR_LAZ
  | LIDAR_INDEX
  | RASTER_DEM
  | RASTER_ORTHO
  | UNKNOWN
  deriving Repr, DecidableEq

structure DetectedFile where
  zip_name : String
  inner_path : String
  extension : String
  size : Nat
  deriving Repr, DecidableEq

structure LidarTile where
  filename : String
  href : String
  size : Nat
  grid_x : Nat
  grid_y : Nat
  deriving Repr, DecidableEq

/-- An entry of a parsed LiDAR-index JSON array: a dict with string
`href`/`title` and integer `length` (default `''`/`''`/`0`), or a non-dict
element (skipped by the source).  JSON text decoding itself is the external
`json` library; a file whose content fails to read, fails to parse, or is
not a JSON array is modelled as `none` below. -/
inductive JEntry where
  | dict (href title : String) (length : Nat)
  | nondict
  deriving Repr, DecidableEq

structure PlainFile where
  name : String
  isFile : Bool
  tiles : Option (List JEntry)
  deriving Repr, DecidableEq

structure ZipEntry where
  filename : String
  isDir : Bool
  fileSize : Nat
  bytes : List Nat
  gpkg : Option GpkgData
  deriving Repr, DecidableEq

/-- A zip archive in the order directory; `entries = none` models
`zipfile.BadZipFile`. Each entry carries its extracted bytes and, when the
bytes are a readable GeoPackage, the catalog view `sqlite3` exposes. -/
structure ZipFile where
  name : String
  entries : Option (List ZipEntry)
  deriving Repr, DecidableEq

/-- An order directory: non-zip files (candidates for the LiDAR index
format), zip archives, and the already-parsed sidecar metadata
(`uttag.json` / `order_metadata.json`; values modelled as strings, on which
Python's `str()` is the identity — parse failures mean an empty dict). -/
structure Dir where
  name : String
  plainFiles : List PlainFile
  zipFiles : List ZipFile
  metadata : List (String × String)
  deriving Repr, DecidableEq

structure DetectedOrder where
  order_id : String
  data_type : DataType
  files : List DetectedFile
  total_size : Nat
  metadata : List (String × String)
  layers : List String
  lidar_tiles : List LidarTile
  deriving Repr, DecidableEq

/-- `Path(p).name`: the last `/`-separated component (zip member paths use
`/`; paths here never end in a separator — directory entries are filtered
out before this is applied). -/
def lastComponent (p : String) : String :=
  String.mk ((p.toList.reverse.takeWhile fun c => c != '/').reverse)

/-- `Path(p).suffix`: `name[i:]` where `i = name.rfind('.')`, provided
`0 < i < len(name) - 1`, else the empty string. -/
def pySuffix (p : String) : String :=
  let name := lastComponent p
  let cs := name.toList
  match ((List.range cs.length).filter fun i => cs.getD i ' ' == '.').getLast? with
  | some i => if 0 < i ∧ i < cs.length - 1 then String.mk (cs.drop i) else ""
  | none => ""

/-- `Path(p).stem`: the name minus `pySuffix`. -/
def pyStem (p : String) : String :=
  let name := lastComponent p
  let cs := name.toList
  match ((List.range cs.length).filter fun i => cs.getD i ' ' == '.').getLast? with
  | some i => if 0 < i ∧ i < cs.length - 1 then String.mk (cs.take i) else name
  | none => name

/-- `EXTENSION_MAP`. -/
def EXTENSION_MAP (ext : String) : Option DataType :=
  if ext = ".gpkg" then some .VECTOR_GPKG
  else if ext = ".laz" then some .LIDAR_LAZ
  else if ext = ".las" then some .LIDAR_LAZ
  else if ext = ".tif" then some .RASTER_DEM   -- could also be RASTER_ORTHO
  else if ext = ".tiff" then some .RASTER_DEM
  else if ext = ".jp2" then some .RASTER_ORTHO
  else none

/-- `PRODUCT_TYPE_MAP`, in dict insertion order. -/
def PRODUCT_TYPE_MAP : List (String × DataType) :=
  [("topografi", .VECTOR_GPKG), ("administrativ", .VECTOR_GPKG),
   ("fastighet", .VECTOR_GPKG), ("hojddata", .RASTER_DEM),
   ("hojdmodell", .RASTER_DEM), ("laserdata", .LIDAR_LAZ),
   ("ortofoto", .RASTER_ORTHO)]

/-- Python `needle in haystack` on strings. -/
def strContains (hay needle : String) : Bool :=
  containsAux needle.toList hay.toList
where
  containsAux (needle : List Char) : List Char → Bool
    | [] => needle.isEmpty
    | c :: rest => needle.isPrefixOf (c :: rest) || containsAux needle rest

def dictGet (m : List (String × String)) (k : String) : Option String :=
  (m.find? fun p => p.1 == k).map (·.2)

/-- The product-type hint loop of `_determine_type`: each of the four keys
in turn; a present key whose lowered value contains a `PRODUCT_TYPE_MAP`
hint (first match, inner `break`) overwrites the hint; the whole block is
guarded by `if metadata:` (empty dict is falsy). -/
def productHint (metadata : List (String × String)) : Option DataType :=
  if metadata.isEmpty then none
  else
    ["produkttyp", "product_type", "datatyp", "data_type"].foldl
      (fun hint key =>
        match dictGet metadata key with
        | none => hint
        | some v =>
            match PRODUCT_TYPE_MAP.find? (fun hd => strContains (pyLower v) hd.1) with
            | some hd => some hd.2
            | none => hint)
      none

/-- `type_counts[dtype] = type_counts.get(dtype, 0) + 1` on an
insertion-ordered dict. -/
def bumpCount : List (DataType × Nat) → DataType → List (DataType × Nat)
  | [], d => [(d, 1)]
  | (k, v) :: rest, d =>
      if k = d then (k, v + 1) :: rest else (k, v) :: bumpCount rest d

def countsLookup (m : List (DataType × Nat)) (d : DataType) : Option Nat :=
  (m.find? fun p => p.1 == d).map (·.2)

/-- `dict.pop`. -/
def countsErase : List (DataType × Nat) → DataType → List (DataType × Nat)
  | [], _ => []
  | (k, v) :: rest, d => if k = d then rest else (k, v) :: countsErase rest d

/-- `dict[k] = n`: update in place, else append. -/
def countsSet : List (DataType × Nat) → DataType → Nat → List (DataType × Nat)
  | [], d, n => [(d, n)]
  | (k, v) :: rest, d, n =>
      if k = d then (k, n) :: rest else (k, v) :: countsSet rest d n

/-- The extension tally of `_determine_type`. -/
def tallyCounts (files : List DetectedFile) : List (DataType × Nat) :=
  files.foldl
    (fun counts f =>
      match EXTENSION_MAP f.extension with
      | some dtype => bumpCount counts dtype
      | none => counts)
    []

/-- `if DataType.RASTER_DEM in type_counts and product_hint ==
DataType.RASTER_ORTHO: type_counts[RASTER_ORTHO] =
type_counts.pop(RASTER_DEM)`. -/
def adjustCounts (counts : List (DataType × Nat)) (product_hint : Option DataType) :
    List (DataType × Nat) :=
  match countsLookup counts .RASTER_DEM, product_hint with
  | some c, some .RASTER_ORTHO => countsSet (countsErase counts .RASTER_DEM) .RASTER_ORTHO c
  | _, _ => counts

/-- `max(type_counts.keys(), key=lambda k: type_counts[k])`: the first key
(in insertion order) with the strictly greatest count. -/
def maxCountKey : List (DataType × Nat) → Option DataType
  | [] => none
  | (k, v) :: rest =>
      some ((rest.foldl (fun best p => if p.2 > best.2 then p else best) (k, v)).1)

def determine_type (files : List DetectedFile) (metadata : List (String × String)) :
    DataType :=
  let counts := adjustCounts (tallyCounts files) (productHint metadata)
  match maxCountKey counts with
  | some d => d
  | none =>
      match productHint metadata with
      | some h => h        -- `if product_hint:` — enum members are truthy
      | none => .UNKNOWN

/-- `^(\d+)_(\d+)$` (the index-file name pattern): since `\d` cannot match
`_`, both groups are exactly the maximal digit runs. -/
def parseIndexName (name : String) : Option (Nat × Nat) :=
  let cs := name.toList
  let ds1 := cs.takeWhile (·.isDigit)
  let rest1 := cs.dropWhile (·.isDigit)
  match rest1 with
  | '_' :: rest2 =>
      let ds2 := rest2.takeWhile (·.isDigit)
      let rest3 := rest2.dropWhile (·.isDigit)
      if ds1.isEmpty || ds2.isEmpty || !rest3.isEmpty then none
      else some (digitsToNat ds1, digitsToNat ds2)
  | _ => none
where
  digitsToNat (ds : List Char) : Nat :=
    ds.foldl (fun n c => n * 10 + (c.toNat - '0'.toNat)) 0

/-- `^[^_]+_(\d+)_(\d+)_.*\.laz$` (the tile title pattern): `[^_]+` cannot
cross the first `_`, and each `(\d+)` must be the maximal digit run before
a literal `_`; the tail only needs the `.laz` suffix. -/
def parseTileTitle (title : String) : Option (Nat × Nat) :=
  let cs := title.toList
  let seg1 := cs.takeWhile (· != '_')
  let rest1 := cs.dropWhile (· != '_')
  if seg1.isEmpty then none
  else
    match rest1 with
    | '_' :: rest2 =>
        let ds1 := rest2.takeWhile (·.isDigit)
        let rest3 := rest2.dropWhile (·.isDigit)
        if ds1.isEmpty then none
        else
          match rest3 with
          | '_' :: rest4 =>
              let ds2 := rest4.takeWhile (·.isDigit)
              let rest5 := rest4.dropWhile (·.isDigit)
              if ds2.isEmpty then none
              else
                match rest5 with
                | '_' :: rest6 =>
                    if ".laz".toList.isSuffixOf rest6 then
                      some (parseIndexName.digitsToNat ds1, parseIndexName.digitsToNat ds2)
                    else none
                | _ => none
          | _ => none
    | _ => none

/-- `_detect_lidar_index`: every regular file whose name matches
`^\d+_\d+$` and parses as a JSON array contributes its `.laz`-titled dict
entries; coordinates come from the title pattern, else from the index-file
name times 10. -/
def detect_lidar_index (files : List PlainFile) : List LidarTile :=
  files.foldl
    (fun tiles f =>
      if !f.isFile then tiles
      else
        match parseIndexName f.name with
        | none => tiles
        | some (a, b) =>
            match f.tiles with
            | none => tiles
            | some entries =>
                tiles ++ entries.foldl
                  (fun acc e =>
                    match e with
                    | .nondict => acc
                    | .dict href title length =>
                        if !strEndsWith title ".laz" then acc
                        else
                          match parseTileTitle title with
                          | some (gx, gy) => acc ++ [⟨title, href, length, gx, gy⟩]
                          | none => acc ++ [⟨title, href, length, a * 10, b * 10⟩])
                  [])
    []

/-- The zip scan of `detect_order_type`: every `*.zip`, skipping corrupt
archives and directory entries; extensions are `Path(name).suffix.lower()`. -/
def scanZips (dir : Dir) : List DetectedFile × Nat :=
  (dir.zipFiles.filter fun z => strEndsWith z.name ".zip").foldl
    (fun acc z =>
      match z.entries with
      | none => acc
      | some es =>
          es.foldl
            (fun acc e =>
              if e.isDir then acc
              else (acc.1 ++ [⟨z.name, e.filename, pyLower (pySuffix e.filename), e.fileSize⟩],
                    acc.2 + e.fileSize))
            acc)
    ([], 0)

/-- The per-zip inner loop of `_extract_gpkg_layers`: collects each
GeoPackage's feature-layer catalog; an `sqlite3.Error` on one entry aborts
the rest of that zip (the `except` wraps the whole zip loop).  A zip entry
missing from the archive would raise an uncaught `KeyError` in the source;
it cannot occur for paths produced by the scan, and is modelled as aborting
the zip. -/
def collectZipLayers (es : List ZipEntry) : List String → List String
  | [] => []
  | p :: ps =>
      match es.find? (fun e => e.filename == p) with
      | none => []
      | some e =>
          match e.gpkg with
          | none => []
          | some g => g.contentsFeatures ++ collectZipLayers es ps

/-- Append into the per-zip group dict (insertion-ordered). -/
def addToGroup : List (String × List String) → String → String →
    List (String × List String)
  | [], z, p => [(z, [p])]
  | (k, ps) :: rest, z, p =>
      if k = z then (k, ps ++ [p]) :: rest else (k, ps) :: addToGroup rest z p

/-- `_extract_gpkg_layers`: group `.gpkg` entries by zip, read each one's
`gpkg_contents`, return `sorted(set(layers))`. -/
def extract_gpkg_layers (dir : Dir) (files : List DetectedFile) : List String :=
  let groups := files.foldl
    (fun acc f =>
      if f.extension = ".gpkg" then addToGroup acc f.zip_name f.inner_path else acc)
    []
  sortedSet (groups.foldl
    (fun acc g =>
      match dir.zipFiles.find? (fun z => z.name == g.1) with
      | none => acc
      | some z =>
          match z.entries with
          | none => acc
          | some es => acc ++ collectZipLayers es g.2)
    [])

/-- `detect_order_type`: the LiDAR-index check runs *first*; a non-empty
tile list classifies the order without opening any archive.  Only otherwise
are zip entries tallied (and layer names extracted for vector payloads). -/
def detect_order_type (dir : Dir) : DetectedOrder :=
  let lidar_tiles := detect_lidar_index dir.plainFiles
  if lidar_tiles.isEmpty then
    let scanned := scanZips dir
    let data_type := determine_type scanned.1 dir.metadata
    { order_id := dir.name
      data_type
      files := scanned.1
      total_size := scanned.2
      metadata := dir.metadata
      layers := if data_type = .VECTOR_GPKG then extract_gpkg_layers dir scanned.1 else []
      lidar_tiles := [] }
  else
    { order_id := dir.name
      data_type := .LIDAR_INDEX
      files := []
      total_size := (lidar_tiles.map (·.size)).sum
      metadata := dir.metadata
      layers := []
      lidar_tiles }

/-- `is_publishable`. -/
def is_publishable (data_type : DataType) : Bool := data_type == .VECTOR_GPKG

/-- `DataType.value`. -/
def dataTypeValue : DataType → String
  | .VECTOR_GPKG => "vector_gpkg"
  | .LIDAR_LAZ => "lidar_laz"
  | .LIDAR_INDEX => "lidar_index"
  | .RASTER_DEM => "raster_dem"
  | .RASTER_ORTHO => "raster_ortho"
  | .UNKNOWN => "unknown"

/-! ## `postgis_loader.PostGISLoader`

The destination database is external (psycopg2/PostGIS); what the claims
touch is the loader's own state transitions: which tables exist and the
`_metadata` table with its `(order_id, layer_name)` upsert.  Row inserts,
`ST_Transform`, index DDL and the bbox query act only on the external side
and carry no information the claims consume.  The file digest
(`hashlib.sha256` of the whole file) is an external deterministic function
of the file bytes, passed in as the parameter `fh` everywhere. -/

structure MetaRec where
  order_id : String
  source_file : String
  source_hash : String
  table_name : String
  layer_name : String
  feature_count : Nat
  deriving Repr, DecidableEq

structure DB where
  tables : List String
  metadata : List MetaRec
  deriving Repr, DecidableEq

/-- `LoadResult` (`duration_seconds` omitted — wall-clock time). -/
structure LoadResult where
  table_name : String
  layer_name : String
  feature_count : Nat
  success : Bool
  error : Option String
  deriving Repr, DecidableEq

/-- The `(order_id, layer_name)` key match of the `_metadata` table. -/
def metaKeyPred (order_id layer_name : String) (r : MetaRec) : Bool :=
  r.order_id == order_id && r.layer_name == layer_name

/-- `SELECT … FROM _metadata WHERE order_id = ? AND layer_name = ?`
(unique on that pair). -/
def metaFind (db : DB) (order_id layer_name : String) : Option MetaRec :=
  db.metadata.find? (metaKeyPred order_id layer_name)

/-- `INSERT … ON CONFLICT (order_id, layer_name) DO UPDATE`: replace the
matching record in place, else append. -/
def metaUpsert (rec : MetaRec) : List MetaRec → List MetaRec
  | [] => [rec]
  | r :: rs =>
      if metaKeyPred rec.order_id rec.layer_name r then rec :: rs
      else r :: metaUpsert rec rs

def _table_exists (db : DB) (t : String) : Bool := db.tables.contains t

def _drop_table (db : DB) (t : String) : DB :=
  { db with tables := db.tables.filter (· != t) }

def _create_table (db : DB) (t : String) : DB :=
  { db with tables := db.tables ++ [t] }

/-- `_update_metadata`: hash the source file and upsert the record (the
bbox column is a destination-side geometry and is not modelled). -/
def _update_metadata (fh : List Nat → String) (db : DB)
    (order_id source_file table_name layer_name : String)
    (feature_count : Nat) (bytes : List Nat) : DB :=
  let rec0 : MetaRec :=
    ⟨order_id, source_file, fh bytes, table_name, layer_name, feature_count⟩
  { db with metadata := metaUpsert rec0 db.metadata }

/-- `_sanitize_name`: lower, replace `[^a-zA-Z0-9_]` by `_`, guard a
leading digit. -/
def _sanitize_name (name : String) : String :=
  let cs := (pyLower name).toList.map fun c => if c.isAlphanum || c == '_' then c else '_'
  match cs with
  | [] => ""
  | c :: _ => if c.isDigit then String.mk ('_' :: cs) else String.mk cs

/-- An extracted container file: the temp file's name, its byte content
(what `_file_hash` digests), and — when the bytes are a readable
GeoPackage — the catalog view `sqlite3` exposes (`none` makes every reader
query raise, caught as a failed layer). -/
structure XFile where
  name : String
  bytes : List Nat
  data : Option GpkgData
  deriving Repr, DecidableEq

def joinComma : List String → String
  | [] => ""
  | [s] => s
  | s :: rest => s ++ ", " ++ joinComma rest

/-- The layer-resolution block of `load_layer` (postgis_loader.py lines
185–204): exact match; else the sole layer of a single-layer container;
else error on an empty container; else a unique case-insensitive match;
else `ValueError` listing the available names. -/
def resolve_layer (actual_layers : List String) (layer_name : String) :
    Except String String :=
  if actual_layers.contains layer_name then .ok layer_name
  else if actual_layers.length == 1 then .ok (actual_layers.headD "")
  else if actual_layers.length == 0 then .error "No layers found in GeoPackage"
  else
    match actual_layers.filter (fun l => pyLower l == pyLower layer_name) with
    | [m] => .ok m
    | _ => .error ("Layer '" ++ layer_name ++ "' not found. Available layers: " ++
        joinComma actual_layers)

/-- `table_name = table_name or self._sanitize_name(layer_name)`. -/
def tableNameOf (table_name? : Option String) (layer_name : String) : String :=
  match table_name? with
  | some t => t
  | none => _sanitize_name layer_name

/-- `CREATE TABLE` when the table is absent (the `_table_exists` guard
around `_create_table` in `load_layer`). -/
def createIfMissing (db : DB) (t : String) : DB :=
  if _table_exists db t then db else _create_table db t

/-- The table-preparation steps of `load_layer`: "replace" drops the
table first, then the table is created when absent. -/
def preparedDB (db : DB) (if_exists : String) (tname : String) : DB :=
  createIfMissing (if if_exists == "replace" then _drop_table db tname else db) tname

/-- `load_layer`.  Returns the database state reached (partial on failure,
as the source commits table DDL before streaming) and the `LoadResult`.
Batching (`batch_size`) only groups the external inserts and does not
change the feature count or any modelled state. -/
def load_layer (fh : List Nat → String) (db : DB) (file : XFile)
    (layer_name : String) (table_name? : Option String) (_target_srid : Int)
    (if_exists : String) (order_id : Option String) : DB × LoadResult :=
  match file.data with
  | none =>
      (db, ⟨tableNameOf table_name? layer_name, layer_name, 0, false,
        some "file is not a database"⟩)
  | some g =>
      match resolve_layer (list_layers g) layer_name with
      | .error e =>
          (db, ⟨tableNameOf table_name? layer_name, layer_name, 0, false, some e⟩)
      | .ok gpkg_layer =>
          match get_layer_info g gpkg_layer with
          | .error e =>
              (db, ⟨tableNameOf table_name? layer_name, layer_name, 0, false, some e⟩)
          | .ok _info =>
              -- `if_exists`: "replace" drops first; "fail" raises when the
              -- table exists (no drop happened, so the state is `db`);
              -- "append" and anything else fall through
              if if_exists == "fail" && _table_exists db (tableNameOf table_name? layer_name) then
                (db, ⟨tableNameOf table_name? layer_name, layer_name, 0, false,
                  some ("Table " ++ tableNameOf table_name? layer_name ++ " already exists")⟩)
              else
                match read_layer g gpkg_layer none 0 with
                | .error e =>
                    (preparedDB db if_exists (tableNameOf table_name? layer_name),
                     ⟨tableNameOf table_name? layer_name, layer_name, 0, false, some e⟩)
                | .ok feats =>
                    let db3 := match order_id with
                      | some o => _update_metadata fh
                          (preparedDB db if_exists (tableNameOf table_name? layer_name)) o
                          file.name (tableNameOf table_name? layer_name) layer_name
                          feats.length file.bytes
                      | none => preparedDB db if_exists (tableNameOf table_name? layer_name)
                    (db3, ⟨tableNameOf table_name? layer_name, layer_name, feats.length,
                      true, none⟩)

/-- `is_layer_current`: true only when a metadata record exists for the
`(order_id, layer_name)` pair and its stored hash equals the live digest
of the file. -/
def is_layer_current (fh : List Nat → String) (db : DB) (bytes : List Nat)
    (layer_name order_id : String) : Bool :=
  match metaFind db order_id layer_name with
  | some r => r.source_hash == fh bytes
  | none => false

/-! ## `processor.DataProcessor.process_order` -/

structure ProcessResult where
  order_id : String
  data_type : DataType
  layers_processed : List LoadResult
  total_features : Nat
  success : Bool
  error : Option String
  deriving Repr, DecidableEq

/-- `name[:-len(suffix)]` for the first matching of `_sverige`/`_sweden`. -/
def dropSuffixStr (s suf : String) : String :=
  String.mk (s.toList.take (s.toList.length - suf.toList.length))

def stripCountrySuffix (layer_name : String) : String :=
  if strEndsWith layer_name "_sverige" then dropSuffixStr layer_name "_sverige"
  else if strEndsWith layer_name "_sweden" then dropSuffixStr layer_name "_sweden"
  else layer_name

/-- `if layers and x not in layers: skip` — `None` *and the empty list* are
falsy, i.e. no filtering. -/
def allowlistKeeps (layers : Option (List String)) (x : String) : Bool :=
  match layers with
  | none => true
  | some ls => !(!ls.isEmpty && !ls.contains x)

/-- `_find_gpkg_files`: `(zip_name, inner_path, filename-derived stem)` for
each `.gpkg` entry passing the allowlist. -/
def _find_gpkg_files (detected : DetectedOrder) (layers : Option (List String)) :
    List (String × String × String) :=
  detected.files.foldl
    (fun acc f =>
      if f.extension != ".gpkg" then acc
      else
        let layer_name := stripCountrySuffix (pyStem f.inner_path)
        if allowlistKeeps layers layer_name then
          acc ++ [(f.zip_name, f.inner_path, layer_name)]
        else acc)
    []

/-- `_extract_gpkg`: write the zip member to a temp file and hand its path
over; the temp name itself is random and read by nothing we model, so the
member path stands in for it. -/
def extractEntry (dir : Dir) (zip_name inner_path : String) :
    Except String XFile :=
  match dir.zipFiles.find? (fun z => z.name == zip_name) with
  | none => .error ("No such file or directory: " ++ zip_name)
  | some z =>
      match z.entries with
      | none => .error ("File is not a zip file: " ++ zip_name)
      | some es =>
          match es.find? (fun e => e.filename == inner_path) with
          | none => .error ("There is no item named " ++ inner_path ++ " in the archive")
          | some e => .ok ⟨inner_path, e.bytes, e.gpkg⟩

/-- First pass of `process_order`: discover the actual layers of every
candidate container; a failure yields a `LoadResult` named after the
filename-derived stem, a success contributes `(zip, inner, actual layer)`
triples filtered by the allowlist. -/
def pass1 (dir : Dir) (gf : List (String × String × String))
    (layers : Option (List String)) :
    List LoadResult × List (String × String × String) :=
  gf.foldl
    (fun acc t =>
      match extractEntry dir t.1 t.2.1 with
      | .error e =>
          (acc.1 ++ [⟨t.2.2, t.2.2, 0, false, some ("Failed to read GPKG: " ++ e)⟩], acc.2)
      | .ok file =>
          match file.data with
          | none =>
              (acc.1 ++ [⟨t.2.2, t.2.2, 0, false,
                some "Failed to read GPKG: file is not a database"⟩], acc.2)
          | some g =>
              (acc.1, acc.2 ++ ((list_layers g).filter
                (fun al => allowlistKeeps layers al)).map fun al => (t.1, t.2.1, al)))
    ([], [])

/-- The load-or-skip decision of one second-pass iteration: skip when
`is_layer_current`, else `load_layer` with `if_exists="replace"`; the
feature-count component counts only successful loads. -/
def pass2go (fh : List Nat → String) (order_id : String) (target_srid : Int)
    (db : DB) (lay : String) (file : XFile) : DB × List LoadResult × Nat :=
  if is_layer_current fh db file.bytes lay order_id then (db, [], 0)
  else
    ((load_layer fh db file lay none target_srid "replace" (some order_id)).1,
     [(load_layer fh db file lay none target_srid "replace" (some order_id)).2],
     if (load_layer fh db file lay none target_srid "replace" (some order_id)).2.success
     then (load_layer fh db file lay none target_srid "replace" (some order_id)).2.feature_count
     else 0)

/-- One iteration of the second pass of `process_order`: re-extract the
zip member, then `pass2go`; extraction failures become failed results. -/
def pass2step (fh : List Nat → String) (dir : Dir) (order_id : String)
    (target_srid : Int) (db : DB) (t : String × String × String) :
    DB × List LoadResult × Nat :=
  match extractEntry dir t.1 t.2.1 with
  | .error e => (db, [⟨t.2.2, t.2.2, 0, false, some e⟩], 0)
  | .ok file => pass2go fh order_id target_srid db t.2.2 file

/-- Second pass of `process_order`: `pass2step` per `(zip, inner, layer)`
triple, threading the database state and accumulating results and the
running feature total. -/
def pass2 (fh : List Nat → String) (dir : Dir) (order_id : String)
    (target_srid : Int) (db : DB) :
    List (String × String × String) → DB × List LoadResult × Nat
  | [] => (db, [], 0)
  | t :: ts =>
      let step := pass2step fh dir order_id target_srid db t
      let rest := pass2 fh dir order_id target_srid step.1 ts
      (rest.1, step.2.1 ++ rest.2.1, step.2.2 + rest.2.2)

def process_order (fh : List Nat → String) (downloads : List Dir) (db : DB)
    (order_id : String) (layers : Option (List String)) (target_srid : Int) :
    DB × ProcessResult :=
  match downloads.find? (fun d => d.name == order_id) with
  | none =>
      (db, ⟨order_id, .UNKNOWN, [], 0, false,
        some ("Order directory not found: " ++ order_id)⟩)
  | some dir =>
      let detected := detect_order_type dir
      if !is_publishable detected.data_type then
        (db, ⟨order_id, detected.data_type, [], 0, false,
          some ("Data type " ++ dataTypeValue detected.data_type ++
            " is not yet supported for publishing")⟩)
      else
        let gf := _find_gpkg_files detected layers
        let p1 := pass1 dir gf layers
        let p2 := pass2 fh dir order_id target_srid db p1.2
        let layer_results := p1.1 ++ p2.2.1
        let all_success := if layer_results.isEmpty then true
          else layer_results.all (·.success)
        (p2.1, ⟨order_id, detected.data_type, layer_results, p2.2.2, all_success,
          if all_success then none else some "Some layers failed to load"⟩)

/-! ### Concrete order data used by counterexamples and witnesses -/

/-- An order directory holding *both* a LiDAR index file and a zip archive
with a GeoPackage entry. -/
def lidarIndexDir : Dir :=
  { name := "order1"
    plainFiles := [⟨"63_5", true, some [.dict "http://x" "20C020_650_60_0000.laz" 100]⟩]
    zipFiles := [⟨"data.zip", some [⟨"Buildings.gpkg", false, 10, [], none⟩]⟩]
    metadata := [] }

/-- A stored GeoPackage-Binary geometry blob: `GP` magic, version 0, flags 0
(no envelope), 4 SRID bytes, then the 3-byte payload `[9, 9, 9]`. -/
def roadsGpb : List Nat := [0x47, 0x50, 0, 0, 0, 0, 0, 0, 9, 9, 9]

/-- A one-layer GeoPackage whose sole row stores `roadsGpb`. -/
def roadsGpkg : GpkgData :=
  { contentsFeatures := ["roads"]
    geometryColumns := [("roads", ⟨"geom", "LINESTRING", 3006⟩)]
    tableColumns := [("roads", [("fid", "INTEGER"), ("geom", "BLOB"), ("name", "TEXT")])]
    tableRows := [("roads", [⟨1, some roadsGpb⟩])] }

/-- A two-layer GeoPackage with layers `A` and `B` (for layer resolution). -/
def abGpkg : GpkgData :=
  { contentsFeatures := ["A", "B"]
    geometryColumns := [("A", ⟨"geom", "POINT", 3006⟩), ("B", ⟨"geom", "POINT", 3006⟩)]
    tableColumns := [("A", [("fid", "INTEGER"), ("geom", "BLOB"), ("n", "TEXT")]),
                     ("B", [("fid", "INTEGER"), ("geom", "BLOB"), ("n", "TEXT")])]
    tableRows := [("A", []), ("B", [])] }

def abFile : XFile := ⟨"ab.gpkg", [1, 2, 3], some abGpkg⟩

/-- A loadable one-layer GeoPackage (`byggnad`) for the idempotence
witness. -/
def wGpkg : GpkgData :=
  { contentsFeatures := ["byggnad"]
    geometryColumns := [("byggnad", ⟨"geom", "POLYGON", 3006⟩)]
    tableColumns := [("byggnad", [("fid", "INTEGER"), ("geom", "BLOB"), ("namn", "TEXT")])]
    tableRows := [("byggnad", [⟨1, some roadsGpb⟩])] }

/-- An order directory with one zip holding one readable GeoPackage. -/
def wDir : Dir :=
  { name := "order42"
    plainFiles := []
    zipFiles := [⟨"b.zip", some [⟨"Buildings.gpkg", false, 10, [7, 7, 7], some wGpkg⟩]⟩]
    metadata := [] }

/-- An order directory whose single zip holds *two* GeoPackages that both
expose the layer `byggnad`, with different file bytes (hence digests). -/
def dupDir : Dir :=
  { name := "order7"
    plainFiles := []
    zipFiles := [⟨"z.zip", some [⟨"a.gpkg", false, 1, [1], some wGpkg⟩,
                                 ⟨"b.gpkg", false, 2, [1, 2], some wGpkg⟩]⟩]
    metadata := [] }

/-- The predicate "this result belongs to layer `L`". -/
def isResultFor (L : String) (r : LoadResult) : Bool := r.layer_name == L

/-- The `LoadResult`s a run emitted for layer `L`. -/
def layerResultsFor (L : String) (rs : List LoadResult) : List LoadResult :=
  rs.filter (isResultFor L)

/-- A concrete stand-in for the sha256 digest used by the idempotence
witness: any injective-on-the-inputs function works, and the witness
touches a single byte string. -/
def wfh : List Nat → String := fun bs => toString bs.length

end Geotorget

namespace Geotorget

/-- **C1** (amended): for every input of length at least 8 whose first two
bytes are the magic marker `GP` and whose envelope code (bits 1–3 of the flag
byte, byte 3) is one of the five table entries `{0:0, 1:32, 2:48, 3:48, 4:64}`,
`gpb_to_wkb` returns exactly the suffix obtained by dropping the leading
`8 + envelope_size` bytes of the input. -/
theorem gpb_strips_header_and_envelope (gpb : List Nat)
    (hlen : 8 ≤ gpb.length) (hmagic : gpb.take 2 = [0x47, 0x50])
    (_hcode : ((gpb.getD 3 0) >>> 1) &&& 0x07 ≤ 4) :
    gpb_to_wkb gpb = .ok (gpb.drop (8 + envelopeSizes (((gpb.getD 3 0) >>> 1) &&& 0x07))) := by
  unfold gpb_to_wkb
  rw [if_neg (by omega), if_neg (by simp [hmagic])]

/-- Witness for C1: a concrete 42-byte GPB value with envelope code 1
(32-byte XY envelope) strips to its final 2 bytes. -/
theorem gpb_strips_header_and_envelope_witness :
    gpb_to_wkb ([0x47, 0x50, 0, 2] ++ List.replicate 36 0 ++ [9, 9]) = .ok [9, 9] := by
  have h := gpb_strips_header_and_envelope
    ([0x47, 0x50, 0, 2] ++ List.replicate 36 0 ++ [9, 9])
    (by decide) (by decide) (by decide)
  exact h.trans (by rfl)

/-- **C1 counterexample**: the claim as stated quantifies over *every* input
whose first two bytes are `GP`; on the 4-byte input `GP..` it predicts the
empty suffix, but the source raises `ValueError("GPB too short: 4 bytes")`
before the magic check. -/
theorem gpb_short_gp_input_raises :
    gpb_to_wkb [0x47, 0x50, 0, 0] =
      .error (.valueError "GPB too short: 4 bytes") := by rfl

/-- **C4** (amended): inputs of length at least 8 whose first two bytes are
not `GP` are returned unchanged; inputs shorter than 8 bytes are *not*
returned unchanged — they raise `ValueError` before the magic check. -/
theorem gpb_non_magic_returned_unchanged (gpb : List Nat)
    (hlen : 8 ≤ gpb.length) (hmagic : gpb.take 2 ≠ [0x47, 0x50]) :
    gpb_to_wkb gpb = .ok gpb := by
  unfold gpb_to_wkb
  rw [if_neg (by omega), if_pos hmagic]

/-- Witness for C4: an 8-byte non-GPB input comes back unchanged. -/
theorem gpb_non_magic_returned_unchanged_witness :
    gpb_to_wkb [1, 2, 3, 4, 5, 6, 7, 8] = .ok [1, 2, 3, 4, 5, 6, 7, 8] :=
  gpb_non_magic_returned_unchanged [1, 2, 3, 4, 5, 6, 7, 8] (by decide) (by decide)

/-- **C4 counterexample**: the claim says inputs without the magic marker are
returned unchanged "including inputs shorter than 8 bytes"; the 1-byte input
`[0]` instead raises `ValueError("GPB too short: 1 bytes")`. -/
theorem gpb_short_input_raises :
    gpb_to_wkb [0] = .error (.valueError "GPB too short: 1 bytes") := by rfl

/-- **C10** (amended): for every input of length at least 8 with the `GP`
magic marker whose envelope code (bits 1–3 of the flag byte) is 5, 6 or 7 —
outside the 5-entry table — `gpb_to_wkb` does not fail: the envelope size
defaults to 0 and exactly 8 bytes are stripped. -/
theorem gpb_unknown_envelope_code_strips_8 (gpb : List Nat)
    (hlen : 8 ≤ gpb.length) (hmagic : gpb.take 2 = [0x47, 0x50])
    (hcode : 5 ≤ ((gpb.getD 3 0) >>> 1) &&& 0x07) :
    gpb_to_wkb gpb = .ok (gpb.drop 8) := by
  unfold gpb_to_wkb
  rw [if_neg (by omega), if_neg (by simp [hmagic])]
  have h7 : ((gpb.getD 3 0) >>> 1) &&& 0x07 ≤ 7 := Nat.and_le_right
  have : envelopeSizes (((gpb.getD 3 0) >>> 1) &&& 0x07) = 0 := by
    unfold envelopeSizes
    interval_cases h : ((gpb.getD 3 0) >>> 1) &&& 0x07 <;> simp_all
  show Except.ok (gpb.drop (8 + envelopeSizes (((gpb.getD 3 0) >>> 1) &&& 0x07))) =
    Except.ok (gpb.drop 8)
  rw [this]

/-- Witness for C10: flag byte `0x0A` encodes envelope code 5; the result is
the input minus its first 8 bytes. -/
theorem gpb_unknown_envelope_code_strips_8_witness :
    gpb_to_wkb [0x47, 0x50, 0, 0x0A, 0, 0, 0, 0, 9, 9] = .ok [9, 9] :=
  gpb_unknown_envelope_code_strips_8 [0x47, 0x50, 0, 0x0A, 0, 0, 0, 0, 9, 9]
    (by decide) (by decide) (by decide)

/-- **C10 counterexample**: as stated the claim covers every `GP`-prefixed
input with envelope code 5–7, but the 4-byte input `GP` + version + flag
`0x0A` (code 5) raises `ValueError` rather than stripping 8 bytes. -/
theorem gpb_short_unknown_envelope_raises :
    gpb_to_wkb [0x47, 0x50, 0, 0x0A] =
      .error (.valueError "GPB too short: 4 bytes") := by rfl

end Geotorget

namespace Geotorget

/-! ### Byte-level lemmas for the round-trip -/

theorem natToBytesLE_length (k n : Nat) : (natToBytesLE k n).length = k := by
  induction k generalizing n with
  | zero => rfl
  | succ k ih => simp [natToBytesLE, ih]

theorem leVal_natToBytesLE (k n : Nat) (h : n < 256 ^ k) :
    leVal (natToBytesLE k n) = n := by
  induction k generalizing n with
  | zero => simp [Nat.pow_zero] at h; simp [natToBytesLE, leVal, h]
  | succ k ih =>
      have hdiv : n / 256 < 256 ^ k := by
        rw [Nat.div_lt_iff_lt_mul (by norm_num)]
        calc n < 256 ^ (k + 1) := h
          _ = 256 ^ k * 256 := by rw [Nat.pow_succ]
      simp [natToBytesLE, leVal, ih _ hdiv, Nat.mod_add_div]

theorem u32le_length (n : Nat) : (u32le n).length = 4 := natToBytesLE_length 4 n

theorem coordBytes_length (c : Nat × Nat) : (coordBytes c).length = 16 := by
  simp [coordBytes, natToBytesLE_length]

theorem flatMap_coordBytes_length (cs : List (Nat × Nat)) :
    (cs.flatMap coordBytes).length = 16 * cs.length := by
  induction cs with
  | nil => rfl
  | cons c cs ih =>
      rw [List.flatMap_cons, List.length_append, coordBytes_length, ih,
        List.length_cons]
      ring

theorem ringBytes_length (r : List (Nat × Nat)) :
    (ringBytes r).length = 4 + 16 * r.length := by
  unfold ringBytes
  rw [List.length_append, u32le_length, flatMap_coordBytes_length]

/-- If `wkb.drop off` starts with a block of length `k`, the slice of length
`k` at `off` is that block. -/
theorem slice_append (wkb : List Nat) (off k : Nat) (pre rest : List Nat)
    (hpre : pre.length = k) (h : wkb.drop off = pre ++ rest) :
    slice wkb off k = pre := by
  unfold slice
  rw [h, ← hpre, List.take_left]

/-- Advancing the offset past a block of length `j` leaves the remainder. -/
theorem drop_shift (wkb : List Nat) (off j : Nat) (pre rest : List Nat)
    (hpre : pre.length = j) (h : wkb.drop off = pre ++ rest) :
    wkb.drop (off + j) = rest := by
  rw [← List.drop_drop, h, ← hpre, List.drop_left]

theorem unpackU32_ok (wkb : List Nat) (off n : Nat) (rest : List Nat)
    (hn : n < 2 ^ 32) (h : wkb.drop off = u32le n ++ rest) :
    unpackU32 "<" (slice wkb off 4) = .ok n := by
  rw [slice_append wkb off 4 _ rest (u32le_length n) h]
  unfold unpackU32 u32le
  rw [if_pos (natToBytesLE_length 4 n), if_pos rfl,
    leVal_natToBytesLE 4 n (by norm_num at hn ⊢; omega)]

theorem unpackDD_ok (wkb : List Nat) (off : Nat) (c : Nat × Nat)
    (rest : List Nat) (hc : wfCoord c = true)
    (h : wkb.drop off = coordBytes c ++ rest) :
    unpackDD "<" (slice wkb off 16) = .ok c := by
  obtain ⟨h1, h2⟩ := Bool.and_eq_true_iff.mp hc
  rw [slice_append wkb off 16 _ rest (coordBytes_length c) h]
  unfold unpackDD
  rw [if_pos (coordBytes_length c), if_pos rfl]
  have t1 : (coordBytes c).take 8 = natToBytesLE 8 c.1 :=
    List.take_left' (natToBytesLE_length 8 c.1)
  have t2 : (coordBytes c).drop 8 = natToBytesLE 8 c.2 :=
    List.drop_left' (natToBytesLE_length 8 c.1)
  rw [t1, t2, leVal_natToBytesLE 8 c.1 (by norm_num at h1 ⊢; omega),
    leVal_natToBytesLE 8 c.2 (by norm_num at h2 ⊢; omega)]

theorem byteAt_ok (wkb : List Nat) (off b : Nat) (l : List Nat)
    (h : wkb.drop off = b :: l) : byteAt wkb off = .ok b := by
  unfold byteAt
  have hg : wkb.get? off = some b := by
    have := List.getElem?_drop wkb off 0
    rw [h] at this
    simpa [List.get?_eq_getElem?] using this.symm
  rw [hg]

theorem innerHeader_ok (wkb : List Nat) (off t : Nat) (rest : List Nat)
    (ht : t < 2 ^ 32) (h : wkb.drop off = 1 :: (u32le t ++ rest)) :
    innerHeader wkb off = .ok ("<", t) := by
  unfold innerHeader
  rw [byteAt_ok wkb off 1 _ h]
  have hdrop : wkb.drop (off + 1) = u32le t ++ rest :=
    drop_shift wkb off 1 [1] _ rfl (by simpa using h)
  show (do
    let t ← unpackU32 (if (1 : Nat) = 1 then "<" else ">") (slice wkb (off + 1) 4)
    Except.ok ((if (1 : Nat) = 1 then "<" else ">"), t)) = Except.ok ("<", t)
  rw [if_pos rfl, unpackU32_ok wkb (off + 1) t rest ht hdrop]
  rfl

theorem okBind {ε α β : Type} (a : α) (f : α → Except ε β) :
    (Except.ok a >>= f) = f a := rfl

/-! ### The decoder inverts the encoder, loop by loop -/

theorem pointsLoop_ok (wkb : List Nat) (cs : List (Nat × Nat)) :
    ∀ (off : Nat) (rest : List Nat),
      wkb.drop off = cs.flatMap coordBytes ++ rest → cs.all wfCoord = true →
      pointsLoop wkb "<" cs.length off = .ok cs := by
  induction cs with
  | nil => intro off rest h _; rfl
  | cons c cs ih =>
      intro off rest h hwf
      rw [List.all_cons] at hwf
      obtain ⟨h1, h2⟩ := Bool.and_eq_true_iff.mp hwf
      rw [List.flatMap_cons, List.append_assoc] at h
      have e1 := unpackDD_ok wkb off c _ h1 h
      have hd : wkb.drop (off + 16) = cs.flatMap coordBytes ++ rest :=
        drop_shift wkb off 16 (coordBytes c) _ (coordBytes_length c) h
      rw [List.length_cons]
      show (do
        let c' ← unpackDD "<" (slice wkb off 16)
        let rest' ← pointsLoop wkb "<" cs.length (off + 16)
        Except.ok (c' :: rest')) = Except.ok (c :: cs)
      rw [e1, okBind, ih (off + 16) rest hd h2, okBind]

theorem parseLineCoords_ok (wkb : List Nat) (cs : List (Nat × Nat))
    (off : Nat) (rest : List Nat)
    (h : wkb.drop off = (u32le cs.length ++ cs.flatMap coordBytes) ++ rest)
    (hlen : cs.length < 2 ^ 32) (hwf : cs.all wfCoord = true) :
    parseLineCoords wkb off "<" = .ok cs := by
  rw [List.append_assoc] at h
  have e1 := unpackU32_ok wkb off cs.length _ hlen h
  have hd := drop_shift wkb off 4 (u32le cs.length) _ (u32le_length _) h
  unfold parseLineCoords
  rw [e1, okBind, pointsLoop_ok wkb cs (off + 4) rest hd hwf]

theorem ringsLoop_ok (wkb : List Nat) (rs : List (List (Nat × Nat))) :
    ∀ (off : Nat) (rest : List Nat),
      wkb.drop off = rs.flatMap ringBytes ++ rest → rs.all wfRing = true →
      ringsLoop wkb "<" rs.length off = .ok rs := by
  induction rs with
  | nil => intro off rest h _; rfl
  | cons r rs ih =>
      intro off rest h hwf
      rw [List.all_cons] at hwf
      obtain ⟨h1, h2⟩ := Bool.and_eq_true_iff.mp hwf
      obtain ⟨hl, hc⟩ := Bool.and_eq_true_iff.mp h1
      rw [List.flatMap_cons, List.append_assoc] at h
      unfold ringBytes at h
      rw [List.append_assoc] at h
      have e1 := unpackU32_ok wkb off r.length _ (of_decide_eq_true hl) h
      have hd4 := drop_shift wkb off 4 (u32le r.length) _ (u32le_length _) h
      have e2 := pointsLoop_ok wkb r (off + 4) _ hd4 hc
      have hdr : wkb.drop (off + 4 + 16 * r.length) = rs.flatMap ringBytes ++ rest :=
        drop_shift wkb (off + 4) (16 * r.length) (r.flatMap coordBytes) _
          (flatMap_coordBytes_length r) hd4
      rw [List.length_cons]
      show (do
        let np ← unpackU32 "<" (slice wkb off 4)
        let ring ← pointsLoop wkb "<" np (off + 4)
        let rest' ← ringsLoop wkb "<" rs.length (off + 4 + 16 * np)
        Except.ok (ring :: rest')) = Except.ok (r :: rs)
      rw [e1, okBind, e2, okBind, ih (off + 4 + 16 * r.length) rest hdr h2, okBind]

theorem parsePolygonRings_ok (wkb : List Nat) (rs : List (List (Nat × Nat)))
    (off : Nat) (rest : List Nat)
    (h : wkb.drop off = polyBytes rs ++ rest) (hwf : wfPoly rs = true) :
    parsePolygonRings wkb off "<" = .ok rs := by
  obtain ⟨hl, hr⟩ := Bool.and_eq_true_iff.mp hwf
  unfold polyBytes at h
  rw [List.append_assoc] at h
  have e1 := unpackU32_ok wkb off rs.length _ (of_decide_eq_true hl) h
  have hd := drop_shift wkb off 4 (u32le rs.length) _ (u32le_length _) h
  unfold parsePolygonRings
  rw [e1, okBind, ringsLoop_ok wkb rs (off + 4) rest hd hr]

theorem polyAdvance_ok (wkb : List Nat) (rs : List (List (Nat × Nat))) :
    ∀ (off : Nat) (rest : List Nat),
      wkb.drop off = rs.flatMap ringBytes ++ rest → rs.all wfRing = true →
      polyAdvance wkb "<" rs.length off = .ok (off + (rs.flatMap ringBytes).length) := by
  induction rs with
  | nil => intro off rest h _; simp [polyAdvance]
  | cons r rs ih =>
      intro off rest h hwf
      rw [List.all_cons] at hwf
      obtain ⟨h1, h2⟩ := Bool.and_eq_true_iff.mp hwf
      obtain ⟨hl, _⟩ := Bool.and_eq_true_iff.mp h1
      rw [List.flatMap_cons, List.append_assoc] at h
      unfold ringBytes at h
      rw [List.append_assoc] at h
      have e1 := unpackU32_ok wkb off r.length _ (of_decide_eq_true hl) h
      have hd4 := drop_shift wkb off 4 (u32le r.length) _ (u32le_length _) h
      have hdr : wkb.drop (off + 4 + 16 * r.length) = rs.flatMap ringBytes ++ rest :=
        drop_shift wkb (off + 4) (16 * r.length) (r.flatMap coordBytes) _
          (flatMap_coordBytes_length r) hd4
      rw [List.length_cons]
      show (do
        let np ← unpackU32 "<" (slice wkb off 4)
        polyAdvance wkb "<" rs.length (off + 4 + 16 * np)) =
        Except.ok (off + ((r :: rs).flatMap ringBytes).length)
      rw [e1, okBind, ih (off + 4 + 16 * r.length) rest hdr h2]
      congr 1
      rw [List.flatMap_cons, List.length_append, ringBytes_length]
      ring

theorem multiPointLoop_ok (wkb : List Nat) (cs : List (Nat × Nat)) :
    ∀ (off : Nat) (rest : List Nat),
      wkb.drop off = cs.flatMap (fun c => 1 :: (u32le 1 ++ coordBytes c)) ++ rest →
      cs.all wfCoord = true →
      multiPointLoop wkb cs.length off = .ok cs := by
  induction cs with
  | nil => intro off rest h _; rfl
  | cons c cs ih =>
      intro off rest h hwf
      rw [List.all_cons] at hwf
      obtain ⟨h1, h2⟩ := Bool.and_eq_true_iff.mp hwf
      rw [List.flatMap_cons, List.append_assoc] at h
      have hh : wkb.drop off =
          1 :: (u32le 1 ++ (coordBytes c ++
            (cs.flatMap (fun c => 1 :: (u32le 1 ++ coordBytes c)) ++ rest))) := by
        simpa [List.append_assoc] using h
      have e1 := innerHeader_ok wkb off 1 _ (by norm_num) hh
      have hd5 : wkb.drop (off + 5) =
          coordBytes c ++ (cs.flatMap (fun c => 1 :: (u32le 1 ++ coordBytes c)) ++ rest) :=
        drop_shift wkb off 5 (1 :: u32le 1) _ (by simp [u32le_length]) (by
          simpa [List.append_assoc] using h)
      have e2 : parsePointCoords wkb (off + 5) "<" = .ok c :=
        unpackDD_ok wkb (off + 5) c _ h1 hd5
      have hd21 : wkb.drop (off + 5 + 16) =
          cs.flatMap (fun c => 1 :: (u32le 1 ++ coordBytes c)) ++ rest :=
        drop_shift wkb (off + 5) 16 (coordBytes c) _ (coordBytes_length c) hd5
      rw [List.length_cons]
      show (do
        let p ← innerHeader wkb off
        let c' ← parsePointCoords wkb (off + 5) p.1
        let rest' ← multiPointLoop wkb cs.length (off + 5 + 16)
        Except.ok (c' :: rest')) = Except.ok (c :: cs)
      rw [e1, okBind]
      show (do
        let c' ← parsePointCoords wkb (off + 5) "<"
        let rest' ← multiPointLoop wkb cs.length (off + 5 + 16)
        Except.ok (c' :: rest')) = Except.ok (c :: cs)
      rw [e2, okBind, ih (off + 5 + 16) rest hd21 h2, okBind]

theorem multiLineLoop_ok (wkb : List Nat) (ls : List (List (Nat × Nat))) :
    ∀ (off : Nat) (rest : List Nat),
      wkb.drop off = ls.flatMap (fun l => 1 :: (u32le 2 ++ ringBytes l)) ++ rest →
      ls.all wfRing = true →
      multiLineLoop wkb ls.length off = .ok ls := by
  induction ls with
  | nil => intro off rest h _; rfl
  | cons l ls ih =>
      intro off rest h hwf
      rw [List.all_cons] at hwf
      obtain ⟨h1, h2⟩ := Bool.and_eq_true_iff.mp hwf
      obtain ⟨hl, hc⟩ := Bool.and_eq_true_iff.mp h1
      rw [List.flatMap_cons, List.append_assoc] at h
      have hh : wkb.drop off =
          1 :: (u32le 2 ++ (ringBytes l ++
            (ls.flatMap (fun l => 1 :: (u32le 2 ++ ringBytes l)) ++ rest))) := by
        simpa [List.append_assoc] using h
      have e1 := innerHeader_ok wkb off 2 _ (by norm_num) hh
      have hd5 : wkb.drop (off + 5) =
          ringBytes l ++ (ls.flatMap (fun l => 1 :: (u32le 2 ++ ringBytes l)) ++ rest) :=
        drop_shift wkb off 5 (1 :: u32le 2) _ (by simp [u32le_length]) (by
          simpa [List.append_assoc] using h)
      have e2 : parseLineCoords wkb (off + 5) "<" = .ok l :=
        parseLineCoords_ok wkb l (off + 5) _ (by simpa [ringBytes] using hd5)
          (of_decide_eq_true hl) hc
      have hd5' : wkb.drop (off + 5) = u32le l.length ++
          (l.flatMap coordBytes ++
            (ls.flatMap (fun l => 1 :: (u32le 2 ++ ringBytes l)) ++ rest)) := by
        simpa [ringBytes, List.append_assoc] using hd5
      have e3 := unpackU32_ok wkb (off + 5) l.length _ (of_decide_eq_true hl) hd5'
      have hd9 := drop_shift wkb (off + 5) 4 (u32le l.length) _ (u32le_length _) hd5'
      have hdn : wkb.drop (off + 5 + 4 + 16 * l.length) =
          ls.flatMap (fun l => 1 :: (u32le 2 ++ ringBytes l)) ++ rest :=
        drop_shift wkb (off + 5 + 4) (16 * l.length) (l.flatMap coordBytes) _
          (flatMap_coordBytes_length l) hd9
      rw [List.length_cons]
      show (do
        let p ← innerHeader wkb off
        let cs ← parseLineCoords wkb (off + 5) p.1
        let np ← unpackU32 p.1 (slice wkb (off + 5) 4)
        let rest' ← multiLineLoop wkb ls.length (off + 5 + 4 + 16 * np)
        Except.ok (cs :: rest')) = Except.ok (l :: ls)
      rw [e1, okBind]
      show (do
        let cs ← parseLineCoords wkb (off + 5) "<"
        let np ← unpackU32 "<" (slice wkb (off + 5) 4)
        let rest' ← multiLineLoop wkb ls.length (off + 5 + 4 + 16 * np)
        Except.ok (cs :: rest')) = Except.ok (l :: ls)
      rw [e2, okBind, e3, okBind, ih (off + 5 + 4 + 16 * l.length) rest hdn h2, okBind]

theorem multiPolyLoop_ok (wkb : List Nat) (ps : List (List (List (Nat × Nat)))) :
    ∀ (off : Nat) (rest : List Nat),
      wkb.drop off = ps.flatMap (fun p => 1 :: (u32le 3 ++ polyBytes p)) ++ rest →
      ps.all wfPoly = true →
      multiPolyLoop wkb ps.length off = .ok ps := by
  induction ps with
  | nil => intro off rest h _; rfl
  | cons p ps ih =>
      intro off rest h hwf
      rw [List.all_cons] at hwf
      obtain ⟨h1, h2⟩ := Bool.and_eq_true_iff.mp hwf
      obtain ⟨hl, hr⟩ := Bool.and_eq_true_iff.mp h1
      rw [List.flatMap_cons, List.append_assoc] at h
      have hh : wkb.drop off =
          1 :: (u32le 3 ++ (polyBytes p ++
            (ps.flatMap (fun p => 1 :: (u32le 3 ++ polyBytes p)) ++ rest))) := by
        simpa [List.append_assoc] using h
      have e1 := innerHeader_ok wkb off 3 _ (by norm_num) hh
      have hd5 : wkb.drop (off + 5) =
          polyBytes p ++ (ps.flatMap (fun p => 1 :: (u32le 3 ++ polyBytes p)) ++ rest) :=
        drop_shift wkb off 5 (1 :: u32le 3) _ (by simp [u32le_length]) (by
          simpa [List.append_assoc] using h)
      have e2 : parsePolygonRings wkb (off + 5) "<" = .ok p :=
        parsePolygonRings_ok wkb p (off + 5) _ hd5 h1
      have hd5' : wkb.drop (off + 5) = u32le p.length ++
          (p.flatMap ringBytes ++
            (ps.flatMap (fun p => 1 :: (u32le 3 ++ polyBytes p)) ++ rest)) := by
        simpa [polyBytes, List.append_assoc] using hd5
      have e3 := unpackU32_ok wkb (off + 5) p.length _ (of_decide_eq_true hl) hd5'
      have hd9 := drop_shift wkb (off + 5) 4 (u32le p.length) _ (u32le_length _) hd5'
      have e4 := polyAdvance_ok wkb p (off + 5 + 4) _ hd9 hr
      have hdn : wkb.drop (off + 5 + 4 + (p.flatMap ringBytes).length) =
          ps.flatMap (fun p => 1 :: (u32le 3 ++ polyBytes p)) ++ rest :=
        drop_shift wkb (off + 5 + 4) (p.flatMap ringBytes).length
          (p.flatMap ringBytes) _ rfl hd9
      rw [List.length_cons]
      show (do
        let hp ← innerHeader wkb off
        let rings ← parsePolygonRings wkb (off + 5) hp.1
        let nr ← unpackU32 hp.1 (slice wkb (off + 5) 4)
        let off' ← polyAdvance wkb hp.1 nr (off + 5 + 4)
        let rest' ← multiPolyLoop wkb ps.length off'
        Except.ok (rings :: rest')) = Except.ok (p :: ps)
      rw [e1, okBind]
      show (do
        let rings ← parsePolygonRings wkb (off + 5) "<"
        let nr ← unpackU32 "<" (slice wkb (off + 5) 4)
        let off' ← polyAdvance wkb "<" nr (off + 5 + 4)
        let rest' ← multiPolyLoop wkb ps.length off'
        Except.ok (rings :: rest')) = Except.ok (p :: ps)
      rw [e2, okBind, e3, okBind, e4, okBind,
        ih (off + 5 + 4 + (p.flatMap ringBytes).length) rest hdn h2, okBind]

/-- Reading the 5-byte top header of a little-endian WKB value without the
EWKB SRID bit reduces `wkb_to_geojson` to the type dispatch at offset 5. -/
theorem wkb_header_le (T : Nat) (payload : List Nat)
    (hT : T < 2 ^ 32) (hsrid : T &&& 0x20000000 = 0) :
    wkb_to_geojson (1 :: (u32le T ++ payload)) =
      parse_geometry (1 :: (u32le T ++ payload)) (1 :: (u32le T ++ payload)).length 5
        (T &&& 0xFF) "<" := by
  unfold wkb_to_geojson
  have hlen : ¬((1 :: (u32le T ++ payload)).length < 5) := by
    simp [u32le_length]
  rw [if_neg hlen]
  have e1 : unpackU32 "<" (slice (1 :: (u32le T ++ payload)) 1 4) = .ok T :=
    unpackU32_ok _ 1 T payload hT (by rfl)
  show (do
    let geom_type ← unpackU32 "<" (slice (1 :: (u32le T ++ payload)) 1 4)
    parse_geometry (1 :: (u32le T ++ payload)) (1 :: (u32le T ++ payload)).length
      (if geom_type &&& 0x20000000 ≠ 0 then 9 else 5) (geom_type &&& 0xFF) "<") =
    parse_geometry (1 :: (u32le T ++ payload)) (1 :: (u32le T ++ payload)).length 5
      (T &&& 0xFF) "<"
  rw [e1, okBind, if_neg (by simp [hsrid])]

theorem drop5_header (T : Nat) (payload : List Nat) :
    ((1 : Nat) :: (u32le T ++ payload)).drop 5 = payload := by
  show (u32le T ++ payload).drop 4 = payload
  exact List.drop_left' (u32le_length T)

theorem roundtrip_main (g : Geom) (w : List Nat)
    (hwf : wfGeom g = true) (henc : geojson_to_wkb g = some w) :
    wkb_to_geojson w = .ok g := by
  cases g with
  | point x y =>
      obtain ⟨hx, hy⟩ := Bool.and_eq_true_iff.mp hwf
      cases henc
      rw [wkb_header_le 1 _ (by norm_num) (by decide)]
      rw [parse_geometry.eq_def]
      norm_num
      show (parsePointCoords _ 5 "<").map (fun c => Geom.point c.1 c.2) = _
      unfold parsePointCoords
      rw [unpackDD_ok (1 :: (u32le 1 ++ coordBytes (x, y))) 5 (x, y) []
        hwf (by rw [drop5_header, List.append_nil])]
      rfl
  | linestring cs =>
      obtain ⟨hl, hc⟩ := Bool.and_eq_true_iff.mp hwf
      cases henc
      rw [wkb_header_le 2 _ (by norm_num) (by decide)]
      rw [parse_geometry.eq_def]
      norm_num
      show (parseLineCoords _ 5 "<").map Geom.linestring = _
      rw [parseLineCoords_ok _ cs 5 [] (by rw [drop5_header, List.append_nil])
        (of_decide_eq_true hl) hc]
      rfl
  | polygon rs =>
      cases henc
      rw [wkb_header_le 3 _ (by norm_num) (by decide)]
      rw [parse_geometry.eq_def]
      norm_num
      show (parsePolygonRings _ 5 "<").map Geom.polygon = _
      rw [parsePolygonRings_ok _ rs 5 [] (by rw [drop5_header, List.append_nil]) hwf]
      rfl
  | multipoint cs =>
      obtain ⟨hl, hc⟩ := Bool.and_eq_true_iff.mp hwf
      cases henc
      rw [wkb_header_le 4 _ (by norm_num) (by decide)]
      rw [parse_geometry.eq_def]
      norm_num
      show parse_multi _ 5 "<" 1 = _
      unfold parse_multi
      have h5 : ((1 : Nat) :: (u32le 4 ++ (u32le cs.length ++
          cs.flatMap fun c => 1 :: (u32le 1 ++ coordBytes c)))).drop 5 =
          u32le cs.length ++
            ((cs.flatMap fun c => 1 :: (u32le 1 ++ coordBytes c)) ++ []) := by
        rw [drop5_header, List.append_nil]
      rw [unpackU32_ok _ 5 cs.length _ (of_decide_eq_true hl) h5, okBind, if_pos rfl]
      have h9 := drop_shift _ 5 4 (u32le cs.length) _ (u32le_length _) h5
      rw [multiPointLoop_ok _ cs 9 [] h9 hc]
      rfl
  | multilinestring ls =>
      obtain ⟨hl, hc⟩ := Bool.and_eq_true_iff.mp hwf
      cases henc
      rw [wkb_header_le 5 _ (by norm_num) (by decide)]
      rw [parse_geometry.eq_def]
      norm_num
      show parse_multi _ 5 "<" 2 = _
      unfold parse_multi
      have h5 : ((1 : Nat) :: (u32le 5 ++ (u32le ls.length ++
          ls.flatMap fun l => 1 :: (u32le 2 ++ ringBytes l)))).drop 5 =
          u32le ls.length ++
            ((ls.flatMap fun l => 1 :: (u32le 2 ++ ringBytes l)) ++ []) := by
        rw [drop5_header, List.append_nil]
      rw [unpackU32_ok _ 5 ls.length _ (of_decide_eq_true hl) h5, okBind]
      rw [if_neg (by decide), if_pos rfl]
      have h9 := drop_shift _ 5 4 (u32le ls.length) _ (u32le_length _) h5
      rw [multiLineLoop_ok _ ls 9 [] h9 hc]
      rfl
  | multipolygon ps =>
      obtain ⟨hl, hc⟩ := Bool.and_eq_true_iff.mp hwf
      cases henc
      rw [wkb_header_le 6 _ (by norm_num) (by decide)]
      rw [parse_geometry.eq_def]
      norm_num
      show parse_multi _ 5 "<" 3 = _
      unfold parse_multi
      have h5 : ((1 : Nat) :: (u32le 6 ++ (u32le ps.length ++
          ps.flatMap fun p => 1 :: (u32le 3 ++ polyBytes p)))).drop 5 =
          u32le ps.length ++
            ((ps.flatMap fun p => 1 :: (u32le 3 ++ polyBytes p)) ++ []) := by
        rw [drop5_header, List.append_nil]
      rw [unpackU32_ok _ 5 ps.length _ (of_decide_eq_true hl) h5, okBind]
      rw [if_neg (by decide), if_neg (by decide)]
      have h9 := drop_shift _ 5 4 (u32le ps.length) _ (u32le_length _) h5
      rw [multiPolyLoop_ok _ ps 9 [] h9 hc]
      rfl
  | geometrycollection gs => simp [wfGeom] at hwf

/-- **C2**: for every representable geometry of the 6 simple/multi types
(Point, LineString, Polygon, MultiPoint, MultiLineString, MultiPolygon —
exactly the inputs `geojson_to_wkb` serializes), serializing its coordinates
to WKB, decoding with `wkb_to_geojson` and rendering with `geojson_to_wkt`
reproduces the geometry's coordinates exactly: the decode yields the
geometry itself, bit-exact (coordinates are 64-bit patterns, untouched by
arithmetic), so the WKT rendering of the decoded geometry equals the WKT
rendering of the original. -/
theorem wkb_geojson_wkt_roundtrip (g : Geom) (w : List Nat)
    (hwf : wfGeom g = true) (henc : geojson_to_wkb g = some w) :
    wkb_to_geojson w = .ok g ∧
      (wkb_to_geojson w).bind geojson_to_wkt = geojson_to_wkt g := by
  have h := roundtrip_main g w hwf henc
  exact ⟨h, by rw [h]; rfl⟩

/-- Witness for C2: a concrete two-ring MultiPolygon round-trips through
WKB, and its WKT rendering survives the round trip. -/
theorem wkb_geojson_wkt_roundtrip_witness :
    wkb_to_geojson (1 :: (u32le 6 ++ (u32le 1 ++
        ([[[(3, 5)], [(7, 9)]]] : List (List (List (Nat × Nat)))).flatMap fun p => 1 :: (u32le 3 ++ polyBytes p)))) =
      .ok (.multipolygon [[[(3, 5)], [(7, 9)]]]) ∧
    (wkb_to_geojson (1 :: (u32le 6 ++ (u32le 1 ++
        ([[[(3, 5)], [(7, 9)]]] : List (List (List (Nat × Nat)))).flatMap fun p => 1 :: (u32le 3 ++ polyBytes p))))).bind
      geojson_to_wkt = geojson_to_wkt (.multipolygon [[[(3, 5)], [(7, 9)]]]) :=
  wkb_geojson_wkt_roundtrip (.multipolygon [[[(3, 5)], [(7, 9)]]]) _ (by decide) rfl

/-- **C3** (as the code stands): truncated input always fails — no partial
geometry is ever returned — but *not* always with the `ValueError` the
module's own docstring promises ("Raises: ValueError: If WKB is invalid or
unsupported"): a little-endian Point header with no coordinate bytes dies
inside `struct.unpack` with `struct.error`; a truncated sub-geometry inside
a MultiPoint or GeometryCollection dies with `IndexError` from `wkb[offset]`.
Only the too-short, bad-byte-order and unsupported-type checks raise
`ValueError`. -/
theorem truncated_wkb_error_kinds :
    wkb_to_geojson [1, 1, 0, 0, 0] = .error .structError ∧
    wkb_to_geojson [1, 4, 0, 0, 0, 1, 0, 0, 0] = .error .indexError ∧
    wkb_to_geojson [1, 7, 0, 0, 0, 1, 0, 0, 0] = .error .indexError ∧
    wkb_to_geojson [1, 2, 0, 0, 0, 1, 0, 0, 0] = .error .structError ∧
    wkb_to_geojson [1] = .error (.valueError "Invalid WKB: too short") ∧
    wkb_to_geojson [2, 1, 0, 0, 0] = .error (.valueError "Invalid WKB byte order: 2") ∧
    wkb_to_geojson [1, 9, 0, 0, 0] = .error (.valueError "Unsupported geometry type: 9") :=
  ⟨rfl, rfl, rfl, rfl, rfl, rfl, rfl⟩

end Geotorget


namespace Geotorget

/-! ### Detector lemmas (C7, C8) -/

theorem countsLookup_cons (k : DataType) (v : Nat) (rest : List (DataType × Nat))
    (d : DataType) :
    countsLookup ((k, v) :: rest) d = if k = d then some v else countsLookup rest d := by
  unfold countsLookup
  by_cases hk : k = d
  · rw [List.find?_cons_of_pos _ (by simpa using hk), if_pos hk]
    rfl
  · rw [List.find?_cons_of_neg _ (by simpa using hk), if_neg hk]

theorem countsLookup_erase_ne (m : List (DataType × Nat)) (d d' : DataType)
    (h : d' ≠ d) : countsLookup (countsErase m d) d' = countsLookup m d' := by
  induction m with
  | nil => rfl
  | cons p rest ih =>
      obtain ⟨k, v⟩ := p
      unfold countsErase
      by_cases hk : k = d
      · rw [if_pos hk, countsLookup_cons, if_neg (by rw [hk]; exact fun e => h e.symm)]
      · rw [if_neg hk, countsLookup_cons, countsLookup_cons]
        by_cases hd' : k = d'
        · rw [if_pos hd', if_pos hd']
        · rw [if_neg hd', if_neg hd', ih]

theorem countsLookup_set_ne (m : List (DataType × Nat)) (d : DataType) (n : Nat)
    (d' : DataType) (h : d' ≠ d) :
    countsLookup (countsSet m d n) d' = countsLookup m d' := by
  induction m with
  | nil =>
      unfold countsSet
      rw [countsLookup_cons, if_neg (fun e => h e.symm)]
  | cons p rest ih =>
      obtain ⟨k, v⟩ := p
      unfold countsSet
      by_cases hk : k = d
      · rw [if_pos hk, countsLookup_cons, countsLookup_cons,
          if_neg (by rw [hk]; exact fun e => h e.symm),
          if_neg (by rw [hk]; exact fun e => h e.symm)]
      · rw [if_neg hk, countsLookup_cons, countsLookup_cons]
        by_cases hd' : k = d'
        · rw [if_pos hd', if_pos hd']
        · rw [if_neg hd', if_neg hd', ih]

/-- The hint adjustment touches only the `RASTER_DEM`/`RASTER_ORTHO` keys. -/
theorem adjustCounts_preserves_other (m : List (DataType × Nat))
    (hint : Option DataType) (d : DataType)
    (hdem : d ≠ .RASTER_DEM) (hortho : d ≠ .RASTER_ORTHO) :
    countsLookup (adjustCounts m hint) d = countsLookup m d := by
  unfold adjustCounts
  rcases hdemv : countsLookup m .RASTER_DEM with _ | c
  · rfl
  · rcases hint with _ | hd
    · rfl
    · cases hd <;> try rfl
      rw [countsLookup_set_ne _ _ _ _ hortho, countsLookup_erase_ne _ _ _ hdem]

theorem maxFold_spec (rest : List (DataType × Nat)) :
    ∀ init : DataType × Nat,
      (rest.foldl (fun best p => if p.2 > best.2 then p else best) init = init ∨
        rest.foldl (fun best p => if p.2 > best.2 then p else best) init ∈ rest) ∧
      init.2 ≤ (rest.foldl (fun best p => if p.2 > best.2 then p else best) init).2 ∧
      ∀ p ∈ rest, p.2 ≤ (rest.foldl (fun best p => if p.2 > best.2 then p else best) init).2 := by
  induction rest with
  | nil => intro init; exact ⟨Or.inl rfl, le_refl _, by simp⟩
  | cons q rest ih =>
      intro init
      rw [List.foldl_cons]
      obtain ⟨hmem, hinit, hall⟩ := ih (if q.2 > init.2 then q else init)
      have hinit2 : init.2 ≤ (if q.2 > init.2 then q else init).2 := by
        by_cases hq : q.2 > init.2
        · rw [if_pos hq]; omega
        · rw [if_neg hq]
      have hq2 : q.2 ≤ (if q.2 > init.2 then q else init).2 := by
        by_cases hq : q.2 > init.2
        · rw [if_pos hq]
        · rw [if_neg hq]; omega
      refine ⟨?_, le_trans hinit2 hinit, ?_⟩
      · rcases hmem with h | h
        · rw [h]
          by_cases hq : q.2 > init.2
          · rw [if_pos hq]; exact Or.inr (List.mem_cons_self q rest)
          · rw [if_neg hq]; exact Or.inl rfl
        · exact Or.inr (List.mem_cons_of_mem q h)
      · intro p hp
        rcases List.mem_cons.mp hp with h | h
        · subst h; exact le_trans hq2 hinit
        · exact hall p h

theorem mem_of_countsLookup (m : List (DataType × Nat)) (d : DataType) (c : Nat)
    (h : countsLookup m d = some c) : ∃ p ∈ m, p.1 = d ∧ p.2 = c := by
  unfold countsLookup at h
  rcases hf : m.find? (fun p => p.1 == d) with _ | p
  · rw [hf] at h; cases h
  · rw [hf] at h
    refine ⟨p, List.mem_of_find?_eq_some hf, ?_, ?_⟩
    · have := List.find?_some hf
      exact of_decide_eq_true (by simpa using this)
    · simpa using h

/-- When some key is present, `determine_type` returns the first
maximal-count key of the adjusted tally: the winner's entry bounds every
looked-up count. -/
theorem determine_type_max (files : List DetectedFile)
    (metadata : List (String × String)) (d : DataType) (c : Nat)
    (h : countsLookup (adjustCounts (tallyCounts files) (productHint metadata)) d = some c) :
    ∃ p ∈ adjustCounts (tallyCounts files) (productHint metadata),
      p.1 = determine_type files metadata ∧ c ≤ p.2 := by
  obtain ⟨pf, hpf, hpfd, hpfc⟩ :=
    mem_of_countsLookup (adjustCounts (tallyCounts files) (productHint metadata)) d c h
  rcases hm : adjustCounts (tallyCounts files) (productHint metadata) with _ | ⟨q, rest⟩
  · rw [hm] at hpf; cases hpf
  · obtain ⟨qk, qv⟩ := q
    rw [hm] at hpf
    obtain ⟨hmem, hinit, hall⟩ := maxFold_spec rest (qk, qv)
    have hdet : determine_type files metadata =
        (rest.foldl (fun best p => if p.2 > best.2 then p else best) (qk, qv)).1 := by
      unfold determine_type maxCountKey
      rw [hm]
    refine ⟨rest.foldl (fun best p => if p.2 > best.2 then p else best) (qk, qv),
      ?_, hdet.symm, ?_⟩
    · rcases hmem with hh | hh
      · rw [hh]; exact List.mem_cons_self _ rest
      · exact List.mem_cons_of_mem _ hh
    · rcases List.mem_cons.mp hpf with hh | hh
      · rw [← hpfc, hh]; exact hinit
      · rw [← hpfc]; exact hall pf hh

end Geotorget

namespace Geotorget

/-- **C7**: in `_determine_type` (embedded as `determine_type`), (i) a
metadata product-type hint never changes the tallied `.gpkg` or `.laz`
counts — the only reassignment moves the ambiguous `.tif`
(`RASTER_DEM`) count onto `RASTER_ORTHO`; (ii) the winning type is one with
the highest entry count over mapped extensions; and (iii) an order with one
`.gpkg` entry and three `.laz` entries is detected as the point-cloud type
`LIDAR_LAZ` regardless of any metadata hint. -/
theorem detection_counts_and_hints :
    (∀ (files : List DetectedFile) (metadata : List (String × String)),
      countsLookup (adjustCounts (tallyCounts files) (productHint metadata)) .VECTOR_GPKG =
        countsLookup (tallyCounts files) .VECTOR_GPKG ∧
      countsLookup (adjustCounts (tallyCounts files) (productHint metadata)) .LIDAR_LAZ =
        countsLookup (tallyCounts files) .LIDAR_LAZ) ∧
    (∀ (files : List DetectedFile) (metadata : List (String × String))
        (d : DataType) (c : Nat),
      countsLookup (adjustCounts (tallyCounts files) (productHint metadata)) d = some c →
      ∃ p ∈ adjustCounts (tallyCounts files) (productHint metadata),
        p.1 = determine_type files metadata ∧ c ≤ p.2) ∧
    (∀ (f1 f2 f3 f4 : DetectedFile) (metadata : List (String × String)),
      f1.extension = ".gpkg" → f2.extension = ".laz" → f3.extension = ".laz" →
      f4.extension = ".laz" →
      determine_type [f1, f2, f3, f4] metadata = .LIDAR_LAZ) := by
  refine ⟨fun files metadata =>
    ⟨adjustCounts_preserves_other _ _ _ (by simp) (by simp),
     adjustCounts_preserves_other _ _ _ (by simp) (by simp)⟩,
    determine_type_max, ?_⟩
  intro f1 f2 f3 f4 metadata h1 h2 h3 h4
  unfold determine_type tallyCounts
  simp only [List.foldl_cons, List.foldl_nil, h1, h2, h3, h4]
  rfl

/-- Witness for C7: one `.gpkg` plus three `.laz` with an `ortofoto` hint
still detects as `LIDAR_LAZ`. -/
theorem detection_counts_and_hints_witness :
    determine_type
      [⟨"z", "a.gpkg", ".gpkg", 1⟩, ⟨"z", "b.laz", ".laz", 1⟩,
       ⟨"z", "c.laz", ".laz", 1⟩, ⟨"z", "d.laz", ".laz", 1⟩]
      [("produkttyp", "ortofoto")] = .LIDAR_LAZ :=
  detection_counts_and_hints.2.2 _ _ _ _ _ rfl rfl rfl rfl

/-- **C8** (amended): `detect_order_type` runs the LiDAR-index check
*first*: whenever any numeric-pair-named JSON index file yields tiles, the
order is classified `LIDAR_INDEX` — even if archives are present, which are
then never opened; only when no tiles are found are the archive entries'
extensions tallied. -/
theorem lidar_index_checked_first (dir : Dir) :
    (detect_order_type dir).data_type =
      if detect_lidar_index dir.plainFiles = [] then
        determine_type (scanZips dir).1 dir.metadata
      else DataType.LIDAR_INDEX := by
  by_cases h : detect_lidar_index dir.plainFiles = []
  · simp [detect_order_type, h]
  · simp [detect_order_type, h, List.isEmpty_iff]

/-- **C8 counterexample**: an order directory containing both a valid tile
index file and a zip archive (whose entries tally to the vector type) is
classified `LIDAR_INDEX`, although archives were found — refuting "only
when no archives are found". -/
theorem lidar_index_beats_archives :
    (detect_order_type lidarIndexDir).data_type = .LIDAR_INDEX ∧
    lidarIndexDir.zipFiles ≠ [] ∧
    determine_type (scanZips lidarIndexDir).1 lidarIndexDir.metadata = .VECTOR_GPKG :=
  ⟨rfl, by simp [lidarIndexDir], rfl⟩

/-! ### Reader lemmas (C9) -/

theorem errBind {ε α β : Type} (e : ε) (f : α → Except ε β) :
    (Except.error e >>= f) = .error e := rfl

theorem convFeatures_forall₂ (rows : List Row) :
    ∀ fs : List Feature, convFeatures rows = .ok fs →
      List.Forall₂ (fun (r : Row) (f : Feature) =>
        f.fid = r.fid ∧ convGeom r.geometry = .ok f.geometry) rows fs := by
  induction rows with
  | nil => intro fs h; cases h; exact List.Forall₂.nil
  | cons r rs ih =>
      intro fs h
      unfold convFeatures at h
      rcases hg : convGeom r.geometry with e | geom
      · rw [hg] at h; cases h
      · rw [hg] at h
        rcases hrest : convFeatures rs with e | fs'
        · rw [hrest] at h; cases h
        · rw [hrest] at h
          cases h
          exact List.Forall₂.cons ⟨rfl, hg⟩ (ih fs' hrest)

end Geotorget

namespace Geotorget

/-- **C9** (amended): `read_layer` does *not* return the raw
container-native bytes: for every layer and every row it yields, the
feature's geometry is the stored GeoPackage-Binary blob already pushed
through `gpb_to_wkb` (header stripped in the reader, `None` for NULL/empty
blobs) — the decode is performed by the reader itself, not deferred to the
codec. -/
theorem read_layer_converts_geometry (g : GpkgData) (layer : String)
    (lim : Option Nat) (off : Nat) (fs : List Feature)
    (h : read_layer g layer lim off = .ok fs) :
    ∃ rp, g.tableRows.find? (fun p => p.1 == layer) = some rp ∧
      ∃ rows, selectRows rp.2 lim off = .ok rows ∧
        List.Forall₂ (fun (r : Row) (f : Feature) =>
          f.fid = r.fid ∧ convGeom r.geometry = .ok f.geometry) rows fs := by
  unfold read_layer at h
  rcases hinfo : get_layer_info g layer with e | info
  · rw [hinfo, errBind] at h; cases h
  · rw [hinfo, okBind] at h
    rcases hcols : info.columns.isEmpty with _ | _
    · rw [hcols] at h
      rcases hrp : g.tableRows.find? (fun p => p.1 == layer) with _ | rp
      · rw [hrp] at h
        simp at h
      · rw [hrp] at h
        simp only [Bool.false_eq_true, if_neg] at h
        rcases hsel : selectRows rp.2 lim off with e | rows
        · rw [hsel, errBind] at h; cases h
        · rw [hsel, okBind] at h
          exact ⟨rp, hrp, rows, hsel, convFeatures_forall₂ rows fs h⟩
    · rw [hcols] at h
      simp at h

/-- Witness for C9 (amended): on the concrete one-row container the single
yielded feature's geometry is `gpb_to_wkb` of the stored blob. -/
theorem read_layer_converts_geometry_witness :
    ∃ rp, roadsGpkg.tableRows.find? (fun p => p.1 == "roads") = some rp ∧
      ∃ rows, selectRows rp.2 none 0 = .ok rows ∧
        List.Forall₂ (fun (r : Row) (f : Feature) =>
          f.fid = r.fid ∧ convGeom r.geometry = .ok f.geometry) rows
          [⟨1, some [9, 9, 9]⟩] :=
  read_layer_converts_geometry roadsGpkg "roads" none 0 [⟨1, some [9, 9, 9]⟩] rfl

/-- **C9 counterexample**: the claim says the geometry comes back as the
raw stored bytes with the GPB header "not yet stripped"; on `roadsGpkg` the
stored blob is the 11-byte `roadsGpb` but `read_layer` yields its 3-byte
`gpb_to_wkb` image. -/
theorem read_layer_not_raw_bytes :
    read_layer roadsGpkg "roads" none 0 = .ok [⟨1, some [9, 9, 9]⟩] ∧
    (roadsGpkg.tableRows.map (·.2.map (·.geometry))) = [[some roadsGpb]] ∧
    some ([9, 9, 9] : List Nat) ≠ some roadsGpb ∧
    gpb_to_wkb roadsGpb = .ok [9, 9, 9] :=
  ⟨rfl, rfl, by decide, rfl⟩

end Geotorget

namespace Geotorget

/-! ### Layer resolution (C5) -/

/-- **C5**: `load_layer`'s resolution of the requested name against the
container's actual layer list: (i) an exact match resolves to itself;
(ii) in a single-layer container every request resolves to that sole layer;
(iii) against layers `["A", "B"]` the request `"a"` resolves
case-insensitively to `"A"`; (iv) the request `"C"` fails with a
layer-not-found error listing the available names `A, B`; and (v) that
failure surfaces through `load_layer` as a failed `LoadResult` carrying the
same message. -/
theorem layer_resolution_spec :
    (∀ (actual : List String) (name : String), name ∈ actual →
      resolve_layer actual name = .ok name) ∧
    (∀ (l name : String), resolve_layer [l] name = .ok l) ∧
    resolve_layer ["A", "B"] "a" = .ok "A" ∧
    resolve_layer ["A", "B"] "C" =
      .error "Layer 'C' not found. Available layers: A, B" ∧
    (∀ (fh : List Nat → String) (db : DB),
      (load_layer fh db abFile "C" none 4326 "replace" none).2 =
        ⟨"c", "C", 0, false, some "Layer 'C' not found. Available layers: A, B"⟩) := by
  refine ⟨?_, ?_, by rfl, by rfl, fun fh db => by rfl⟩
  · intro actual name h
    unfold resolve_layer
    rw [if_pos (by simpa using h)]
  · intro l name
    unfold resolve_layer
    by_cases h : l = name
    · rw [if_pos (by simp [h])]
      rw [h]
    · rw [if_neg (by simp; exact fun e => h e.symm),
        if_pos (show ([l].length == 1) = true from rfl)]
      rfl

/-- Witness for C5: a concrete exact match and a concrete single-layer
resolution. -/
theorem layer_resolution_spec_witness :
    resolve_layer ["x", "y"] "y" = .ok "y" ∧
    resolve_layer ["only"] "whatever" = .ok "only" :=
  ⟨layer_resolution_spec.1 ["x", "y"] "y" (by simp),
   layer_resolution_spec.2.1 "only" "whatever"⟩

end Geotorget


namespace Geotorget

/-! ### Loader and processor lemmas (C6) -/

theorem find_upsert_self (rec : MetaRec) (m : List MetaRec) :
    (metaUpsert rec m).find? (metaKeyPred rec.order_id rec.layer_name) = some rec := by
  induction m with
  | nil =>
      show List.find? _ [rec] = some rec
      rw [List.find?_cons_of_pos _ (by simp [metaKeyPred])]
  | cons r rs ih =>
      unfold metaUpsert
      by_cases h : metaKeyPred rec.order_id rec.layer_name r = true
      · rw [if_pos h, List.find?_cons_of_pos _ (by simp [metaKeyPred])]
      · rw [if_neg h, List.find?_cons_of_neg _ h]
        exact ih

theorem find_upsert_other (rec : MetaRec) (m : List MetaRec) (o L : String)
    (h : ¬(metaKeyPred o L rec = true)) :
    (metaUpsert rec m).find? (metaKeyPred o L) = m.find? (metaKeyPred o L) := by
  induction m with
  | nil =>
      show List.find? _ [rec] = List.find? _ []
      rw [List.find?_cons_of_neg _ h]
  | cons r rs ih =>
      unfold metaUpsert
      by_cases hr : metaKeyPred rec.order_id rec.layer_name r = true
      · rw [if_pos hr]
        have hrkey : ¬(metaKeyPred o L r = true) := by
          unfold metaKeyPred at hr h ⊢
          obtain ⟨h1, h2⟩ := Bool.and_eq_true_iff.mp hr
          rw [eq_of_beq h1, eq_of_beq h2]
          exact h
        rw [List.find?_cons_of_neg _ h, List.find?_cons_of_neg _ hrkey]
      · rw [if_neg hr]
        by_cases hk : metaKeyPred o L r = true
        · rw [List.find?_cons_of_pos _ hk, List.find?_cons_of_pos _ hk]
        · rw [List.find?_cons_of_neg _ hk, List.find?_cons_of_neg _ hk]
          exact ih

theorem meta_createIfMissing (db : DB) (t : String) :
    (createIfMissing db t).metadata = db.metadata := by
  unfold createIfMissing
  split <;> rfl

theorem meta_preparedDB (db : DB) (ie t : String) :
    (preparedDB db ie t).metadata = db.metadata := by
  unfold preparedDB
  rw [meta_createIfMissing]
  split <;> rfl

/-- A successful `load_layer` with an order id upserted exactly one record,
keyed `(order_id, layer_name)` with the requested layer name, whose hash is
the digest of the loaded file's bytes; every other outcome left the
metadata untouched and reported failure. -/
theorem load_layer_spec (fh : List Nat → String) (db : DB) (file : XFile)
    (ln : String) (tn : Option String) (srid : Int) (ie : String) (o : String) :
    ((load_layer fh db file ln tn srid ie (some o)).1.metadata = db.metadata ∧
     (load_layer fh db file ln tn srid ie (some o)).2.success = false) ∨
    (∃ fc sf,
      (load_layer fh db file ln tn srid ie (some o)).1.metadata =
        metaUpsert ⟨o, sf, fh file.bytes, tableNameOf tn ln, ln, fc⟩ db.metadata ∧
      (load_layer fh db file ln tn srid ie (some o)).2.success = true) := by
  unfold load_layer
  split
  · exact Or.inl ⟨rfl, rfl⟩
  · split
    · exact Or.inl ⟨rfl, rfl⟩
    · split
      · exact Or.inl ⟨rfl, rfl⟩
      · split
        · exact Or.inl ⟨rfl, rfl⟩
        · split
          · exact Or.inl ⟨meta_preparedDB db ie (tableNameOf tn ln), rfl⟩
          · rename_i feats hread
            refine Or.inr ⟨feats.length, file.name, ?_, rfl⟩
            show (_update_metadata fh (preparedDB db ie (tableNameOf tn ln)) o
              file.name (tableNameOf tn ln) ln feats.length file.bytes).metadata = _
            unfold _update_metadata
            rw [meta_preparedDB]

theorem load_layer_result_layer (fh : List Nat → String) (db : DB) (file : XFile)
    (ln : String) (tn : Option String) (srid : Int) (ie : String)
    (oid : Option String) :
    (load_layer fh db file ln tn srid ie oid).2.layer_name = ln := by
  unfold load_layer
  split
  · rfl
  · split
    · rfl
    · split
      · rfl
      · split
        · rfl
        · split
          · rfl
          · rfl

theorem load_layer_success_find (fh : List Nat → String) (db : DB) (file : XFile)
    (ln : String) (tn : Option String) (srid : Int) (ie : String) (o : String)
    (h : (load_layer fh db file ln tn srid ie (some o)).2.success = true) :
    ∃ rec, metaFind (load_layer fh db file ln tn srid ie (some o)).1 o ln = some rec ∧
      rec.source_hash = fh file.bytes := by
  rcases load_layer_spec fh db file ln tn srid ie o with ⟨_, hs⟩ | ⟨fc, sf, hm, _⟩
  · rw [h] at hs
    exact absurd hs (by decide)
  · refine ⟨⟨o, sf, fh file.bytes, tableNameOf tn ln, ln, fc⟩, ?_, rfl⟩
    unfold metaFind
    rw [hm]
    have hfs := find_upsert_self
      (⟨o, sf, fh file.bytes, tableNameOf tn ln, ln, fc⟩ : MetaRec) db.metadata
    exact hfs

theorem current_requires_record (fh : List Nat → String) (db : DB)
    (bytes : List Nat) (L o : String)
    (h : is_layer_current fh db bytes L o = true) :
    ∃ rec, metaFind db o L = some rec ∧ rec.source_hash = fh bytes := by
  unfold is_layer_current at h
  rcases hm : metaFind db o L with _ | rec
  · rw [hm] at h
    exact absurd h Bool.false_ne_true
  · rw [hm] at h
    exact ⟨rec, rfl, eq_of_beq h⟩

theorem current_after_success (fh : List Nat → String) (db : DB) (file : XFile)
    (ln : String) (tn : Option String) (srid : Int) (ie : String) (o : String)
    (h : (load_layer fh db file ln tn srid ie (some o)).2.success = true) :
    is_layer_current fh (load_layer fh db file ln tn srid ie (some o)).1
      file.bytes ln o = true := by
  obtain ⟨rec, hfind, hh⟩ := load_layer_success_find fh db file ln tn srid ie o h
  unfold is_layer_current
  rw [hfind]
  simp [hh]

theorem pass2go_skip (fh : List Nat → String) (o : String) (srid : Int)
    (db : DB) (lay : String) (file : XFile)
    (hc : is_layer_current fh db file.bytes lay o = true) :
    pass2go fh o srid db lay file = (db, [], 0) := by
  unfold pass2go
  rw [hc]
  rfl

theorem pass2go_load (fh : List Nat → String) (o : String) (srid : Int)
    (db : DB) (lay : String) (file : XFile)
    (hc : is_layer_current fh db file.bytes lay o = false) :
    pass2go fh o srid db lay file =
      ((load_layer fh db file lay none srid "replace" (some o)).1,
       [(load_layer fh db file lay none srid "replace" (some o)).2],
       if (load_layer fh db file lay none srid "replace" (some o)).2.success
       then (load_layer fh db file lay none srid "replace" (some o)).2.feature_count
       else 0) := by
  unfold pass2go
  rw [hc]
  rfl

theorem pass2step_err (fh : List Nat → String) (dir : Dir) (o : String)
    (srid : Int) (db : DB) (t : String × String × String) (e : String)
    (hx : extractEntry dir t.1 t.2.1 = .error e) :
    pass2step fh dir o srid db t = (db, [⟨t.2.2, t.2.2, 0, false, some e⟩], 0) := by
  unfold pass2step
  rw [hx]

theorem pass2step_ok (fh : List Nat → String) (dir : Dir) (o : String)
    (srid : Int) (db : DB) (t : String × String × String) (file : XFile)
    (hx : extractEntry dir t.1 t.2.1 = .ok file) :
    pass2step fh dir o srid db t = pass2go fh o srid db t.2.2 file := by
  unfold pass2step
  rw [hx]

theorem pass2step_layers (fh : List Nat → String) (dir : Dir) (o : String)
    (srid : Int) (db : DB) (t : String × String × String) :
    ∀ r ∈ (pass2step fh dir o srid db t).2.1, r.layer_name = t.2.2 := by
  intro r hr
  cases hx : extractEntry dir t.1 t.2.1 with
  | error e =>
      rw [pass2step_err fh dir o srid db t e hx] at hr
      simp only [List.mem_singleton] at hr
      rw [hr]
  | ok file =>
      rw [pass2step_ok fh dir o srid db t file hx] at hr
      cases hc : is_layer_current fh db file.bytes t.2.2 o with
      | true =>
          rw [pass2go_skip fh o srid db t.2.2 file hc] at hr
          exact absurd hr (List.not_mem_nil r)
      | false =>
          rw [pass2go_load fh o srid db t.2.2 file hc] at hr
          simp only [List.mem_singleton] at hr
          rw [hr]
          exact load_layer_result_layer fh db file t.2.2 none srid "replace" (some o)

theorem pass2step_find (fh : List Nat → String) (dir : Dir) (o : String)
    (srid : Int) (db : DB) (t : String × String × String) (L : String)
    (ht : t.2.2 ≠ L) :
    metaFind (pass2step fh dir o srid db t).1 o L = metaFind db o L := by
  cases hx : extractEntry dir t.1 t.2.1 with
  | error e => rw [pass2step_err fh dir o srid db t e hx]
  | ok file =>
      rw [pass2step_ok fh dir o srid db t file hx]
      cases hc : is_layer_current fh db file.bytes t.2.2 o with
      | true => rw [pass2go_skip fh o srid db t.2.2 file hc]
      | false =>
          rw [pass2go_load fh o srid db t.2.2 file hc]
          show metaFind (load_layer fh db file t.2.2 none srid "replace" (some o)).1 o L
            = metaFind db o L
          rcases load_layer_spec fh db file t.2.2 none srid "replace" o with
            ⟨hm, _⟩ | ⟨fc, sf, hm, _⟩
          · unfold metaFind
            rw [hm]
          · unfold metaFind
            rw [hm]
            apply find_upsert_other
            intro hk
            unfold metaKeyPred at hk
            exact ht (eq_of_beq (Bool.and_eq_true_iff.mp hk).2)

theorem pass2_fst_cons (fh : List Nat → String) (dir : Dir) (o : String)
    (srid : Int) (db : DB) (t : String × String × String)
    (ts : List (String × String × String)) :
    (pass2 fh dir o srid db (t :: ts)).1
      = (pass2 fh dir o srid (pass2step fh dir o srid db t).1 ts).1 := rfl

theorem pass2_res_cons (fh : List Nat → String) (dir : Dir) (o : String)
    (srid : Int) (db : DB) (t : String × String × String)
    (ts : List (String × String × String)) :
    (pass2 fh dir o srid db (t :: ts)).2.1
      = (pass2step fh dir o srid db t).2.1
        ++ (pass2 fh dir o srid (pass2step fh dir o srid db t).1 ts).2.1 := rfl

theorem pass2_results_layers (fh : List Nat → String) (dir : Dir) (o : String)
    (srid : Int) :
    ∀ (ts : List (String × String × String)) (db : DB) (r : LoadResult),
      r ∈ (pass2 fh dir o srid db ts).2.1 → ∃ u ∈ ts, r.layer_name = u.2.2 := by
  intro ts
  induction ts with
  | nil =>
      intro db r hr
      exact absurd hr (List.not_mem_nil r)
  | cons t ts ih =>
      intro db r hr
      rw [pass2_res_cons] at hr
      rcases List.mem_append.mp hr with h | h
      · exact ⟨t, List.mem_cons_self t ts, pass2step_layers fh dir o srid db t r h⟩
      · obtain ⟨u, hu, hl⟩ := ih _ r h
        exact ⟨u, List.mem_cons_of_mem t hu, hl⟩

theorem pass2_find_preserved (fh : List Nat → String) (dir : Dir) (o : String)
    (srid : Int) (L : String) :
    ∀ (ts : List (String × String × String)) (db : DB),
      (∀ u ∈ ts, u.2.2 ≠ L) →
      metaFind (pass2 fh dir o srid db ts).1 o L = metaFind db o L := by
  intro ts
  induction ts with
  | nil => intro db _; rfl
  | cons t ts ih =>
      intro db h
      rw [pass2_fst_cons, ih _ (fun u hu => h u (List.mem_cons_of_mem t hu)),
        pass2step_find fh dir o srid db t L (h t (List.mem_cons_self t ts))]

theorem pass2_no_results_for (fh : List Nat → String) (dir : Dir) (o : String)
    (srid : Int) (L : String) (t : String × String × String) (file : XFile)
    (rec : MetaRec) (h4 : t.2.2 = L)
    (hx : extractEntry dir t.1 t.2.1 = .ok file)
    (hh : rec.source_hash = fh file.bytes) :
    ∀ (ts1 ts2 : List (String × String × String)) (db : DB),
      (∀ u ∈ ts1 ++ ts2, u.2.2 ≠ L) →
      metaFind db o L = some rec →
      ∀ r ∈ (pass2 fh dir o srid db (ts1 ++ t :: ts2)).2.1, r.layer_name ≠ L := by
  subst h4
  intro ts1
  induction ts1 with
  | nil =>
      intro ts2 db h5 hfind r hr
      have hcur : is_layer_current fh db file.bytes t.2.2 o = true := by
        unfold is_layer_current
        rw [hfind]
        simp [hh]
      have hr' : r ∈ (pass2 fh dir o srid db (t :: ts2)).2.1 := hr
      rw [pass2_res_cons, pass2step_ok fh dir o srid db t file hx,
        pass2go_skip fh o srid db t.2.2 file hcur] at hr'
      rcases List.mem_append.mp hr' with h | h
      · exact absurd h (List.not_mem_nil r)
      · obtain ⟨u, hu, hl⟩ := pass2_results_layers fh dir o srid ts2 _ r h
        intro hrL
        exact h5 u (List.mem_append.mpr (Or.inr hu)) (by rw [← hl, hrL])
  | cons v ts1' ih =>
      intro ts2 db h5 hfind r hr
      have hv : v.2.2 ≠ t.2.2 := h5 v (List.mem_append.mpr (Or.inl (List.mem_cons_self v ts1')))
      have hr' : r ∈ (pass2step fh dir o srid db v).2.1
          ++ (pass2 fh dir o srid (pass2step fh dir o srid db v).1
              (ts1' ++ t :: ts2)).2.1 := by
        rw [← pass2_res_cons]
        exact hr
      rcases List.mem_append.mp hr' with h | h
      · intro hrL
        exact hv (by rw [← pass2step_layers fh dir o srid db v r h, hrL])
      · have h5' : ∀ u ∈ ts1' ++ ts2, u.2.2 ≠ t.2.2 := by
          intro u hu
          rcases List.mem_append.mp hu with h1 | h1
          · exact h5 u (List.mem_append.mpr (Or.inl (List.mem_cons_of_mem v h1)))
          · exact h5 u (List.mem_append.mpr (Or.inr h1))
        have hfind' : metaFind (pass2step fh dir o srid db v).1 o t.2.2 = some rec := by
          rw [pass2step_find fh dir o srid db v t.2.2 hv]
          exact hfind
        exact ih ts2 _ h5' hfind' r h

theorem pass2_success_record (fh : List Nat → String) (dir : Dir) (o : String)
    (srid : Int) (L : String) (t : String × String × String) (h4 : t.2.2 = L) :
    ∀ (ts1 ts2 : List (String × String × String)) (db : DB),
      (∀ u ∈ ts1 ++ ts2, u.2.2 ≠ L) →
      (∃ r ∈ (pass2 fh dir o srid db (ts1 ++ t :: ts2)).2.1,
        r.layer_name = L ∧ r.success = true) →
      ∃ file rec, extractEntry dir t.1 t.2.1 = .ok file ∧
        metaFind (pass2 fh dir o srid db (ts1 ++ t :: ts2)).1 o L = some rec ∧
        rec.source_hash = fh file.bytes := by
  subst h4
  intro ts1
  induction ts1 with
  | nil =>
      intro ts2 db h5 hex
      obtain ⟨r, hr, hrL, hrS⟩ := hex
      cases hx : extractEntry dir t.1 t.2.1 with
      | error e =>
          exfalso
          have hr' : r ∈ (pass2 fh dir o srid db (t :: ts2)).2.1 := hr
          rw [pass2_res_cons, pass2step_err fh dir o srid db t e hx] at hr'
          rcases List.mem_append.mp hr' with h | h
          · have heq : r = ⟨t.2.2, t.2.2, 0, false, some e⟩ := by
              simpa using h
            rw [heq] at hrS
            exact absurd hrS Bool.false_ne_true
          · obtain ⟨u, hu, hl⟩ := pass2_results_layers fh dir o srid ts2 _ r h
            exact h5 u (List.mem_append.mpr (Or.inr hu)) (by rw [← hl, hrL])
      | ok file =>
          cases hc : is_layer_current fh db file.bytes t.2.2 o with
          | true =>
              exfalso
              have hr' : r ∈ (pass2 fh dir o srid db (t :: ts2)).2.1 := hr
              rw [pass2_res_cons, pass2step_ok fh dir o srid db t file hx,
                pass2go_skip fh o srid db t.2.2 file hc] at hr'
              rcases List.mem_append.mp hr' with h | h
              · exact absurd h (List.not_mem_nil r)
              · obtain ⟨u, hu, hl⟩ := pass2_results_layers fh dir o srid ts2 _ r h
                exact h5 u (List.mem_append.mpr (Or.inr hu)) (by rw [← hl, hrL])
          | false =>
              have hsucc : (load_layer fh db file t.2.2 none srid "replace"
                  (some o)).2.success = true := by
                have hr' : r ∈ (pass2 fh dir o srid db (t :: ts2)).2.1 := hr
                rw [pass2_res_cons, pass2step_ok fh dir o srid db t file hx,
                  pass2go_load fh o srid db t.2.2 file hc] at hr'
                rcases List.mem_append.mp hr' with h | h
                · have heq : r = (load_layer fh db file t.2.2 none srid "replace"
                      (some o)).2 := by
                    simpa using h
                  rw [← heq]
                  exact hrS
                · exfalso
                  obtain ⟨u, hu, hl⟩ := pass2_results_layers fh dir o srid ts2 _ r h
                  exact h5 u (List.mem_append.mpr (Or.inr hu)) (by rw [← hl, hrL])
              obtain ⟨rec, hfind, hh⟩ :=
                load_layer_success_find fh db file t.2.2 none srid "replace" o hsucc
              refine ⟨file, rec, rfl, ?_, hh⟩
              show metaFind (pass2 fh dir o srid db (t :: ts2)).1 o t.2.2 = some rec
              rw [pass2_fst_cons, pass2step_ok fh dir o srid db t file hx,
                pass2go_load fh o srid db t.2.2 file hc,
                pass2_find_preserved fh dir o srid t.2.2 ts2 _
                  (fun u hu => h5 u (List.mem_append.mpr (Or.inr hu)))]
              exact hfind
  | cons v ts1' ih =>
      intro ts2 db h5 hex
      obtain ⟨r, hr, hrL, hrS⟩ := hex
      have hv : v.2.2 ≠ t.2.2 :=
        h5 v (List.mem_append.mpr (Or.inl (List.mem_cons_self v ts1')))
      have hr' : r ∈ (pass2step fh dir o srid db v).2.1
          ++ (pass2 fh dir o srid (pass2step fh dir o srid db v).1
              (ts1' ++ t :: ts2)).2.1 := by
        rw [← pass2_res_cons]
        exact hr
      have h5' : ∀ u ∈ ts1' ++ ts2, u.2.2 ≠ t.2.2 := by
        intro u hu
        rcases List.mem_append.mp hu with h1 | h1
        · exact h5 u (List.mem_append.mpr (Or.inl (List.mem_cons_of_mem v h1)))
        · exact h5 u (List.mem_append.mpr (Or.inr h1))
      rcases List.mem_append.mp hr' with h | h
      · exact absurd (by rw [← pass2step_layers fh dir o srid db v r h, hrL]) hv
      · obtain ⟨file, rec, hx, hfind, hh⟩ := ih ts2 _ h5' ⟨r, h, hrL, hrS⟩
        refine ⟨file, rec, hx, ?_, hh⟩
        show metaFind (pass2 fh dir o srid db (v :: (ts1' ++ t :: ts2))).1 o t.2.2
          = some rec
        rw [pass2_fst_cons]
        exact hfind

theorem process_order_run (fh : List Nat → String) (downloads : List Dir) (db : DB)
    (o : String) (layers : Option (List String)) (srid : Int) (dir : Dir)
    (h1 : downloads.find? (fun d => d.name == o) = some dir)
    (h2 : is_publishable (detect_order_type dir).data_type = true) :
    (process_order fh downloads db o layers srid).1
      = (pass2 fh dir o srid db
          (pass1 dir (_find_gpkg_files (detect_order_type dir) layers) layers).2).1 ∧
    (process_order fh downloads db o layers srid).2.layers_processed
      = (pass1 dir (_find_gpkg_files (detect_order_type dir) layers) layers).1
        ++ (pass2 fh dir o srid db
            (pass1 dir (_find_gpkg_files (detect_order_type dir) layers) layers).2).2.1 := by
  unfold process_order
  rw [h1]
  simp only [h2, Bool.not_true]
  exact ⟨rfl, rfl⟩

/-- **C6**: (i) `is_layer_current` is true only if a metadata record exists
for the `(order_id, layer)` pair whose stored hash equals the live digest of
the file's bytes; (ii) after a successful `load_layer` of a layer under an
order id, `is_layer_current` holds for that layer on the resulting database;
(iii) for a found, publishable order whose discovery pass succeeds and yields
exactly one `(zip, member, layer)` triple for layer `L`, if the first
`process_order` emitted a successful result for `L` then a second
`process_order` over the unmodified order, run on the database the first one
produced, emits zero `LoadResult`s for `L` — the `is_layer_current` skip
emits no result. -/
theorem load_idempotence (fh : List Nat → String) :
    (∀ (db : DB) (bytes : List Nat) (L o : String),
      is_layer_current fh db bytes L o = true →
      ∃ rec, metaFind db o L = some rec ∧ rec.source_hash = fh bytes) ∧
    (∀ (db : DB) (file : XFile) (ln : String) (tn : Option String)
        (srid : Int) (ie o : String),
      (load_layer fh db file ln tn srid ie (some o)).2.success = true →
      is_layer_current fh (load_layer fh db file ln tn srid ie (some o)).1
        file.bytes ln o = true) ∧
    (∀ (downloads : List Dir) (db : DB) (o : String)
        (layers : Option (List String)) (srid : Int) (dir : Dir)
        (ts1 ts2 : List (String × String × String))
        (t : String × String × String) (L : String),
      downloads.find? (fun d => d.name == o) = some dir →
      is_publishable (detect_order_type dir).data_type = true →
      pass1 dir (_find_gpkg_files (detect_order_type dir) layers) layers
        = ([], ts1 ++ t :: ts2) →
      t.2.2 = L →
      (∀ u ∈ ts1 ++ ts2, u.2.2 ≠ L) →
      (∃ r ∈ (process_order fh downloads db o layers srid).2.layers_processed,
        r.layer_name = L ∧ r.success = true) →
      layerResultsFor L (process_order fh downloads
          (process_order fh downloads db o layers srid).1
          o layers srid).2.layers_processed = []) := by
  refine ⟨fun db bytes L o h => current_requires_record fh db bytes L o h,
    fun db file ln tn srid ie o h => current_after_success fh db file ln tn srid ie o h,
    ?_⟩
  intro downloads db o layers srid dir ts1 ts2 t L h1 h2 h3 h4 h5 h6
  obtain ⟨hdb1, hres1⟩ := process_order_run fh downloads db o layers srid dir h1 h2
  obtain ⟨hdb2, hres2⟩ := process_order_run fh downloads
    (process_order fh downloads db o layers srid).1 o layers srid dir h1 h2
  rw [hres1, h3] at h6
  have h6' : ∃ r ∈ (pass2 fh dir o srid db (ts1 ++ t :: ts2)).2.1,
      r.layer_name = L ∧ r.success = true := h6
  obtain ⟨file, rec, hx, hfind, hh⟩ :=
    pass2_success_record fh dir o srid L t h4 ts1 ts2 db h5 h6'
  have hfind2 : metaFind (process_order fh downloads db o layers srid).1 o L
      = some rec := by
    rw [hdb1, h3]
    exact hfind
  have hno := pass2_no_results_for fh dir o srid L t file rec h4 hx hh ts1 ts2
    (process_order fh downloads db o layers srid).1 h5 hfind2
  rw [hres2, h3]
  unfold layerResultsFor
  refine List.filter_eq_nil_iff.mpr ?_
  intro r hr
  rcases List.mem_append.mp hr with h | h
  · exact absurd h (List.not_mem_nil r)
  · intro hb
    exact hno r h (eq_of_beq hb)

/-- Witness for C6: on the concrete one-zip, one-GeoPackage order `wDir`,
the first `process_order` run loads layer `byggnad` successfully, and the
second run over the database the first produced emits zero results for it. -/
theorem load_idempotence_witness :
    ((process_order wfh [wDir] ⟨[], []⟩ "order42" none 3006).2.layers_processed.any
        (fun r => r.layer_name == "byggnad" && r.success)) = true ∧
    layerResultsFor "byggnad"
      (process_order wfh [wDir]
        (process_order wfh [wDir] ⟨[], []⟩ "order42" none 3006).1
        "order42" none 3006).2.layers_processed = [] := by
  constructor
  · rfl
  · exact (load_idempotence wfh).2.2 [wDir] ⟨[], []⟩ "order42" none 3006 wDir [] []
      ("b.zip", "Buildings.gpkg", "byggnad") "byggnad"
      (by rfl) (by rfl) (by rfl) rfl
      (by intro u hu; exact absurd hu (List.not_mem_nil u))
      ⟨⟨"byggnad", "byggnad", 1, true, none⟩,
        by show (⟨"byggnad", "byggnad", 1, true, none⟩ : LoadResult)
              ∈ [⟨"byggnad", "byggnad", 1, true, none⟩]
           exact List.mem_cons_self _ _,
        rfl, rfl⟩

/-- **C6 counterexample**: on `dupDir` — one order whose zip holds two
GeoPackages that both expose layer `byggnad` with different file bytes — the
first `process_order` run loads `byggnad` successfully (twice: the second
load overwrites the single `(order_id, layer_name)`-keyed hash record), and
the second run over the unmodified order emits two further `LoadResult`s for
`byggnad` instead of the zero the claim predicts: the stored hash can match
at most one of the two source digests, so `is_layer_current` keeps failing
and both sources reload on every run. -/
theorem duplicate_layer_sources_not_idempotent :
    ((process_order wfh [dupDir] ⟨[], []⟩ "order7" none 3006).2.layers_processed.any
        (fun r => r.layer_name == "byggnad" && r.success)) = true ∧
    layerResultsFor "byggnad"
      (process_order wfh [dupDir]
        (process_order wfh [dupDir] ⟨[], []⟩ "order7" none 3006).1
        "order7" none 3006).2.layers_processed
      = [⟨"byggnad", "byggnad", 1, true, none⟩,
         ⟨"byggnad", "byggnad", 1, true, none⟩] :=
  ⟨rfl, rfl⟩

end Geotorget
